import Mathlib

/-!
# Verification of the AMD HSMP driver mailbox transport and topology discovery

This file is a shallow embedding, in Lean 4, of the core of the `amd_hsmp`
kernel driver sources: the PCI mailbox exchange (`send_message_pci` in
`amd_hsmp.c` and `__hsmp_send_message` / `hsmp_send_message` in the platform
driver), the ioctl direction validation (`hsmp_ioctl`), the topology discovery
(`get_system_topology`), the per-socket telemetry getters, the DDR bandwidth
accessors, and the startup loopback test (`hsmp_test_message`).

Modelling conventions:
* Machine integers (`u8`/`u16`/`u32`) are modelled as `Nat`; truncations such
  as `& 0xFF` are written `% 256`.  C `int` return codes are `Int` (0 for
  success, negative errno for failure).
* Hardware register accesses (the two-step index/data config-space access
  performed by `smu_pci_read`/`smu_pci_write`/`amd_hsmp_rdwr`) are consulted
  through an oracle `HW : Nat → Access → Except Int Nat`, indexed by the
  ordinal of the access so that successive polling reads of the status
  register may observe different values.  An `Except.error e` models the PCI
  accessor returning the nonzero code `e`.
* Wall-clock deadlines are modelled by a poll-iteration budget (`fuel`).
* Each embedded operation also returns the list of register accesses it
  performed, so that "no register access occurs" is expressible as an
  empty trace.
-/

/-! ## Status codes, errno values and register addresses from the sources -/

def HSMP_STATUS_NOT_READY : Nat := 0x00
def HSMP_STATUS_OK : Nat := 0x01
def HSMP_ERR_INVALID_MSG : Nat := 0xFE
/-- `amd_hsmp.c` name for mailbox status `0xFF`. -/
def HSMP_ERR_REQUEST_FAIL : Nat := 0xFF
/-- Platform-driver name for mailbox status `0xFF` (same value). -/
def HSMP_ERR_INVALID_INPUT : Nat := 0xFF

def SMN_HSMP_MSG_ID : Nat := 0x3B10534
def SMN_HSMP_MSG_RESP : Nat := 0x3B10980
def SMN_HSMP_MSG_DATA : Nat := 0x3B109E0

def MAX_SOCKETS : Nat := 2
def MAX_NBIOS : Nat := 8
def MAX_PCI_BUSSES : Nat := 32
def HSMP_MAX_MSG_LEN : Nat := 8

/- Linux errno magnitudes; the driver returns their negations.  (`EIO` is
spelled `EIO_errno` because the plain name is taken by the Lean core
library.) -/
def EIO_errno : Int := 5
def EFAULT : Int := 14
def ENODEV : Int := 19
def EINVAL : Int := 22
def ENOMSG : Int := 42
def EBADE : Int := 52
def ETIME : Int := 62
def ETIMEDOUT : Int := 110
def EOPNOTSUPP : Int := 95
def ENOTSUPP : Int := 524

/-! ## Message identifiers (`enum hsmp_message_ids`, uapi header;
`enum hsmp_msg_t` in `amd_hsmp.c` assigns the same values) -/

def HSMP_TEST : Nat := 1
def HSMP_GET_SMU_VER : Nat := 2
def HSMP_GET_PROTO_VER : Nat := 3
def HSMP_GET_SOCKET_POWER : Nat := 4
def HSMP_SET_SOCKET_POWER_LIMIT : Nat := 5
def HSMP_GET_SOCKET_POWER_LIMIT : Nat := 6
def HSMP_GET_SOCKET_POWER_LIMIT_MAX : Nat := 7
def HSMP_SET_BOOST_LIMIT : Nat := 8
def HSMP_SET_BOOST_LIMIT_SOCKET : Nat := 9
def HSMP_GET_BOOST_LIMIT : Nat := 10
def HSMP_GET_PROC_HOT : Nat := 11
def HSMP_SET_XGMI_LINK_WIDTH : Nat := 12
def HSMP_SET_DF_PSTATE : Nat := 13
def HSMP_AUTO_DF_PSTATE : Nat := 14
def HSMP_GET_FCLK_MCLK : Nat := 15
def HSMP_GET_CCLK_THROTTLE_LIMIT : Nat := 16
def HSMP_GET_C0_PERCENT : Nat := 17
def HSMP_SET_NBIO_DPM_LEVEL : Nat := 18
def HSMP_RESERVED : Nat := 19
def HSMP_GET_DDR_BANDWIDTH : Nat := 20
def HSMP_GET_TEMP_MONITOR : Nat := 21
def HSMP_MSG_ID_MAX : Nat := 22

/-! ## The message value type (`struct hsmp_message`)

The uapi struct carries `msg_id` and `sock_ind`; the `amd_hsmp.c` struct is
identical except that the identifier field is spelled `msg_num` and there is
no `sock_ind`.  The argument array is modelled as a total function so that
reading any slot is defined; callers zero-fill unused slots. -/

structure hsmp_message where
  msg_id : Nat
  num_args : Nat
  response_sz : Nat
  args : Nat → Nat
  sock_ind : Nat

/-! ## The register-port oracle -/

/-- One logical register access: a `smu_pci_write`/`amd_hsmp_rdwr(WR)` of
`val` to SMN address `addr`, or a read of SMN address `addr`. -/
inductive Access where
  | wr (addr val : Nat)
  | rd (addr : Nat)
deriving DecidableEq, Repr

/-- Hardware oracle: the result of the `t`-th register access of an exchange.
`Except.error e` models the PCI config accessor returning nonzero code `e`;
`Except.ok v` is a successful access (`v` is the value read; ignored for
writes). -/
def HW : Type := Nat → Access → Except Int Nat

/-! ## Mailbox exchange, PCI driver (`send_message_pci`, amd_hsmp.c) -/

/-- Result of `send_message_pci`: the returned code, the response words read
back (in order), the register accesses performed, and the socket's `hung`
flag after the call. -/
structure pci_result where
  ret : Int
  response : List Nat
  trace : List Access
  hung : Bool
deriving DecidableEq, Repr

/-- The argument-write loop shared by both drivers: write `k` argument words
starting at slot `i` to `SMN_HSMP_MSG_DATA + (arg_num << 2)`, aborting on the
first failed access.  `t` is the ordinal of the next access. -/
def writeArgs (hw : HW) (args : Nat → Nat) : Nat → Nat → Nat → List Access × Int
  | _, _, 0 => ([], 0)
  | t, i, k + 1 =>
    match hw t (Access.wr (SMN_HSMP_MSG_DATA + 4 * i) (args i)) with
    | Except.error e => ([Access.wr (SMN_HSMP_MSG_DATA + 4 * i) (args i)], e)
    | Except.ok _ =>
      let r := writeArgs hw args (t + 1) (i + 1) k
      (Access.wr (SMN_HSMP_MSG_DATA + 4 * i) (args i) :: r.1, r.2)

/-- Outcome of the PCI driver's poll loop. -/
inductive PollRes where
  | ioErr (e : Int)
  | timedOut
  | got (v : Nat)
deriving DecidableEq, Repr

/-- Poll loop of `send_message_pci`: sleep, read the status register; if the
read fails propagate the error; if the status is still `HSMP_STATUS_NOT_READY`
retry until the deadline (`fuel` further iterations) has expired. -/
def pollPci (hw : HW) : Nat → Nat → List Access × PollRes
  | t, 0 =>
    match hw t (Access.rd SMN_HSMP_MSG_RESP) with
    | Except.error e => ([Access.rd SMN_HSMP_MSG_RESP], PollRes.ioErr e)
    | Except.ok v =>
      ([Access.rd SMN_HSMP_MSG_RESP],
        if v = HSMP_STATUS_NOT_READY then PollRes.timedOut else PollRes.got v)
  | t, fuel + 1 =>
    match hw t (Access.rd SMN_HSMP_MSG_RESP) with
    | Except.error e => ([Access.rd SMN_HSMP_MSG_RESP], PollRes.ioErr e)
    | Except.ok v =>
      if v = HSMP_STATUS_NOT_READY then
        let r := pollPci hw (t + 1) fuel
        (Access.rd SMN_HSMP_MSG_RESP :: r.1, r.2)
      else ([Access.rd SMN_HSMP_MSG_RESP], PollRes.got v)

/-- The response-read loop shared by both drivers: read `k` response words
starting at slot `i`, stopping at the first failed access (the words already
read are kept, the failing code is returned). -/
def readResponses (hw : HW) : Nat → Nat → Nat → List Access × List Nat × Int
  | _, _, 0 => ([], [], 0)
  | t, i, k + 1 =>
    match hw t (Access.rd (SMN_HSMP_MSG_DATA + 4 * i)) with
    | Except.error e => ([Access.rd (SMN_HSMP_MSG_DATA + 4 * i)], [], e)
    | Except.ok v =>
      let r := readResponses hw (t + 1) (i + 1) k
      (Access.rd (SMN_HSMP_MSG_DATA + 4 * i) :: r.1, v :: r.2.1, r.2.2)

/-- `send_message_pci` (amd_hsmp.c): the mailbox exchange of the PCI driver
for one socket.  `hung` is the socket's sticky flag on entry; the final
`if (err == -ETIMEDOUT) socket->hung = true` of the source is reflected in
the `hung` field of every exit (the early fast-fail exit leaves the flag
`true`). -/
def send_message_pci (hung : Bool) (msg : hsmp_message) (hw : HW) (fuel : Nat) :
    pci_result :=
  if hung then ⟨-ETIMEDOUT, [], [], true⟩
  else
    match hw 0 (Access.wr SMN_HSMP_MSG_RESP HSMP_STATUS_NOT_READY) with
    | Except.error e =>
      ⟨e, [], [Access.wr SMN_HSMP_MSG_RESP HSMP_STATUS_NOT_READY],
        decide (e = -ETIMEDOUT)⟩
    | Except.ok _ =>
      let w := writeArgs hw msg.args 1 0 msg.num_args
      if w.2 = 0 then
        match hw (1 + w.1.length) (Access.wr SMN_HSMP_MSG_ID msg.msg_id) with
        | Except.error e =>
          ⟨e, [],
            Access.wr SMN_HSMP_MSG_RESP HSMP_STATUS_NOT_READY ::
              (w.1 ++ [Access.wr SMN_HSMP_MSG_ID msg.msg_id]),
            decide (e = -ETIMEDOUT)⟩
        | Except.ok _ =>
          let p := pollPci hw (1 + w.1.length + 1) fuel
          let base := Access.wr SMN_HSMP_MSG_RESP HSMP_STATUS_NOT_READY ::
            (w.1 ++ Access.wr SMN_HSMP_MSG_ID msg.msg_id :: p.1)
          match p.2 with
          | PollRes.ioErr e => ⟨e, [], base, decide (e = -ETIMEDOUT)⟩
          | PollRes.timedOut => ⟨-ETIMEDOUT, [], base, decide ((-ETIMEDOUT : Int) = -ETIMEDOUT)⟩
          | PollRes.got v =>
            if v = HSMP_ERR_INVALID_MSG then
              ⟨-ENOMSG, [], base, decide ((-ENOMSG : Int) = -ETIMEDOUT)⟩
            else if v = HSMP_ERR_REQUEST_FAIL then
              ⟨-EFAULT, [], base, decide ((-EFAULT : Int) = -ETIMEDOUT)⟩
            else if v ≠ HSMP_STATUS_OK then
              ⟨-EIO_errno, [], base, decide ((-EIO_errno : Int) = -ETIMEDOUT)⟩
            else
              let r := readResponses hw (1 + w.1.length + 1 + p.1.length) 0 msg.response_sz
              ⟨r.2.2, r.2.1, base ++ r.1, decide (r.2.2 = -ETIMEDOUT)⟩
      else
        ⟨w.2, [], Access.wr SMN_HSMP_MSG_RESP HSMP_STATUS_NOT_READY :: w.1,
          decide (w.2 = -ETIMEDOUT)⟩

/-! ## Mailbox exchange, platform driver (`__hsmp_send_message`,
`hsmp_send_message`, `hsmp_ioctl`) -/

/-- Result of a platform-driver exchange: return code, response words read,
register accesses performed. -/
structure plat_result where
  ret : Int
  response : List Nat
  trace : List Access
deriving DecidableEq, Repr

/-- Poll loop of `__hsmp_send_message`: while the deadline has not expired
(`fuel` remaining iterations), read the status register and stop as soon as
it differs from `HSMP_STATUS_NOT_READY`.  Returns the final `mbox_status`
(which is still `HSMP_STATUS_NOT_READY` if the deadline expired) or the
failing read's code. -/
def pollPlat (hw : HW) : Nat → Nat → List Access × Except Int Nat
  | _, 0 => ([], Except.ok HSMP_STATUS_NOT_READY)
  | t, fuel + 1 =>
    match hw t (Access.rd SMN_HSMP_MSG_RESP) with
    | Except.error e => ([Access.rd SMN_HSMP_MSG_RESP], Except.error e)
    | Except.ok v =>
      if v ≠ HSMP_STATUS_NOT_READY then ([Access.rd SMN_HSMP_MSG_RESP], Except.ok v)
      else
        let r := pollPlat hw (t + 1) fuel
        (Access.rd SMN_HSMP_MSG_RESP :: r.1, r.2)

/-- `__hsmp_send_message` (platform driver): clear the status register, write
the arguments, write the message id (the trigger), poll for a terminal
status, map it to a return code, and on success read back `response_sz`
words (stopping at the first failed read and returning its code). -/
def __hsmp_send_message (msg : hsmp_message) (hw : HW) (fuel : Nat) : plat_result :=
  match hw 0 (Access.wr SMN_HSMP_MSG_RESP HSMP_STATUS_NOT_READY) with
  | Except.error e => ⟨e, [], [Access.wr SMN_HSMP_MSG_RESP HSMP_STATUS_NOT_READY]⟩
  | Except.ok _ =>
    let w := writeArgs hw msg.args 1 0 msg.num_args
    if w.2 = 0 then
      match hw (1 + w.1.length) (Access.wr SMN_HSMP_MSG_ID msg.msg_id) with
      | Except.error e =>
        ⟨e, [], Access.wr SMN_HSMP_MSG_RESP HSMP_STATUS_NOT_READY ::
          (w.1 ++ [Access.wr SMN_HSMP_MSG_ID msg.msg_id])⟩
      | Except.ok _ =>
        let p := pollPlat hw (1 + w.1.length + 1) fuel
        let base := Access.wr SMN_HSMP_MSG_RESP HSMP_STATUS_NOT_READY ::
          (w.1 ++ Access.wr SMN_HSMP_MSG_ID msg.msg_id :: p.1)
        match p.2 with
        | Except.error e => ⟨e, [], base⟩
        | Except.ok v =>
          if v = HSMP_STATUS_NOT_READY then ⟨-ETIMEDOUT, [], base⟩
          else if v = HSMP_ERR_INVALID_MSG then ⟨-ENOMSG, [], base⟩
          else if v = HSMP_ERR_INVALID_INPUT then ⟨-EINVAL, [], base⟩
          else if v ≠ HSMP_STATUS_OK then ⟨-EIO_errno, [], base⟩
          else
            let r := readResponses hw (1 + w.1.length + 1 + p.1.length) 0 msg.response_sz
            ⟨r.2.2, r.2.1, base ++ r.1⟩
    else
      ⟨w.2, [], Access.wr SMN_HSMP_MSG_RESP HSMP_STATUS_NOT_READY :: w.1⟩

/-- `hsmp_send_message` (platform driver, exported entry point): device
lookup, message validation, per-socket semaphore, then the core exchange.
`nbRoot` models `node_to_amd_nb(msg->sock_ind)` yielding a device with a
root pointer; `semOk` models `down_timeout` succeeding within its budget. -/
def hsmp_send_message (nbRoot : Bool) (semOk : Bool) (msg : hsmp_message)
    (hw : HW) (fuel : Nat) : plat_result :=
  if nbRoot = false then ⟨-ENODEV, [], []⟩
  else if msg.msg_id < HSMP_TEST ∨ msg.msg_id ≥ HSMP_MSG_ID_MAX then ⟨-EINVAL, [], []⟩
  else if msg.num_args > HSMP_MAX_MSG_LEN ∨ msg.response_sz > HSMP_MAX_MSG_LEN then
    ⟨-EINVAL, [], []⟩
  else if semOk = false then ⟨-ETIME, [], []⟩
  else __hsmp_send_message msg hw fuel

/-- List of "Configure/SET" message ids (`hsmp_set_msgs`). -/
def hsmp_set_msgs : List Nat :=
  [HSMP_SET_SOCKET_POWER_LIMIT, HSMP_SET_BOOST_LIMIT, HSMP_SET_BOOST_LIMIT_SOCKET,
   HSMP_SET_XGMI_LINK_WIDTH, HSMP_SET_DF_PSTATE, HSMP_AUTO_DF_PSTATE,
   HSMP_SET_NBIO_DPM_LEVEL]

/-- List of "Monitor/GET" message ids (`hsmp_get_msgs`). -/
def hsmp_get_msgs : List Nat :=
  [HSMP_TEST, HSMP_GET_SMU_VER, HSMP_GET_PROTO_VER, HSMP_GET_SOCKET_POWER,
   HSMP_GET_SOCKET_POWER_LIMIT, HSMP_GET_SOCKET_POWER_LIMIT_MAX,
   HSMP_GET_BOOST_LIMIT, HSMP_GET_PROC_HOT, HSMP_GET_FCLK_MCLK,
   HSMP_GET_CCLK_THROTTLE_LIMIT, HSMP_GET_C0_PERCENT, HSMP_GET_DDR_BANDWIDTH,
   HSMP_GET_TEMP_MONITOR]

/-- `search_msg_list`: linear scan; `0` when found, `-EINVAL` otherwise. -/
def search_msg_list (msgid : Nat) : List Nat → Int
  | [] => -EINVAL
  | x :: xs => if msgid = x then 0 else search_msg_list msgid xs

/-- `hsmp_ioctl` (platform driver): dispatch on the opener's file mode.  A
write-only opener may only submit SET-classified ids, a read-only opener only
GET-classified ids; a read-write opener may submit either.  The user-copy
steps are modelled as always succeeding. -/
def hsmp_ioctl (fwrite fread : Bool) (msg : hsmp_message) (nbRoot semOk : Bool)
    (hw : HW) (fuel : Nat) : plat_result :=
  match fwrite, fread with
  | true, false =>
    if search_msg_list msg.msg_id hsmp_set_msgs ≠ 0 then
      ⟨search_msg_list msg.msg_id hsmp_set_msgs, [], []⟩
    else hsmp_send_message nbRoot semOk msg hw fuel
  | false, true =>
    if search_msg_list msg.msg_id hsmp_get_msgs ≠ 0 then
      ⟨search_msg_list msg.msg_id hsmp_get_msgs, [], []⟩
    else hsmp_send_message nbRoot semOk msg hw fuel
  | true, true =>
    if search_msg_list msg.msg_id hsmp_set_msgs = 0 then
      hsmp_send_message nbRoot semOk msg hw fuel
    else if search_msg_list msg.msg_id hsmp_get_msgs ≠ 0 then
      ⟨search_msg_list msg.msg_id hsmp_get_msgs, [], []⟩
    else hsmp_send_message nbRoot semOk msg hw fuel
  | false, false => ⟨-EINVAL, [], []⟩

/-! ## Per-socket getters and DDR-bandwidth accessors (amd_hsmp.c)

These call the transport through the `hsmp_send_message` function pointer
(which resolves to `send_message_pci`); the transport is abstracted as
`Send : socket → message → return code × response array`.  A C output
pointer is modelled by a `Bool` flag (`true` = the caller passed NULL) and
the value written through it by an `Option Nat` (`none` = nothing written). -/

def Send : Type := Nat → hsmp_message → Int × List Nat

/-- `hsmp_get_power`: average socket power in milliwatts. -/
def hsmp_get_power (send : Send) (amd_num_sockets : Nat) (socket_id : Nat)
    (power_mw_null : Bool) : Int × Option Nat :=
  if power_mw_null then (-EINVAL, none)
  else if socket_id ≥ amd_num_sockets then (-ENODEV, none)
  else
    let r := send socket_id ⟨HSMP_GET_SOCKET_POWER, 0, 1, fun _ => 0, 0⟩
    if r.1 ≠ 0 then (r.1, none) else (r.1, some (r.2.headD 0))

/-- `hsmp_get_power_limit`: socket power limit in milliwatts. -/
def hsmp_get_power_limit (send : Send) (amd_num_sockets : Nat) (socket_id : Nat)
    (limit_mw_null : Bool) : Int × Option Nat :=
  if limit_mw_null then (-EINVAL, none)
  else if socket_id ≥ amd_num_sockets then (-ENODEV, none)
  else
    let r := send socket_id ⟨HSMP_GET_SOCKET_POWER_LIMIT, 0, 1, fun _ => 0, 0⟩
    if r.1 ≠ 0 then (r.1, none) else (r.1, some (r.2.headD 0))

/-- `hsmp_get_proc_hot`: PROC_HOT status. -/
def hsmp_get_proc_hot (send : Send) (amd_num_sockets : Nat) (socket_id : Nat)
    (proc_hot_null : Bool) : Int × Option Nat :=
  if proc_hot_null then (-EINVAL, none)
  else if socket_id ≥ amd_num_sockets then (-ENODEV, none)
  else
    let r := send socket_id ⟨HSMP_GET_PROC_HOT, 0, 1, fun _ => 0, 0⟩
    if r.1 ≠ 0 then (r.1, none) else (r.1, some (r.2.headD 0))

/-- `hsmp_get_fabric_clocks`: data-fabric clock and memory clock in MHz. -/
def hsmp_get_fabric_clocks (send : Send) (amd_num_sockets : Nat) (socket_id : Nat)
    (fclk_null memclk_null : Bool) : Int × Option Nat × Option Nat :=
  if fclk_null ∧ memclk_null then (-EINVAL, none, none)
  else if socket_id ≥ amd_num_sockets then (-ENODEV, none, none)
  else
    let r := send socket_id ⟨HSMP_GET_FCLK_MCLK, 0, 2, fun _ => 0, 0⟩
    if r.1 ≠ 0 then (r.1, none, none)
    else (r.1, if fclk_null then none else some (r.2.headD 0),
          if memclk_null then none else some (r.2.getD 1 0))

/-- `hsmp_get_max_cclk`: most restrictive core-clock limit in MHz. -/
def hsmp_get_max_cclk (send : Send) (amd_num_sockets : Nat) (socket_id : Nat)
    (max_mhz_null : Bool) : Int × Option Nat :=
  if max_mhz_null then (-EINVAL, none)
  else if socket_id ≥ amd_num_sockets then (-ENODEV, none)
  else
    let r := send socket_id ⟨HSMP_GET_CCLK_THROTTLE_LIMIT, 0, 1, fun _ => 0, 0⟩
    if r.1 ≠ 0 then (r.1, none) else (r.1, some (r.2.headD 0))

/-- `hsmp_get_c0_residency`: average C0 residency percentage.  Note the
socket bound check is `socket_id > amd_num_sockets`, unlike the `≥` used by
every other per-socket getter. -/
def hsmp_get_c0_residency (send : Send) (amd_num_sockets : Nat) (socket_id : Nat)
    (residency_null : Bool) : Int × Option Nat :=
  if residency_null then (-EINVAL, none)
  else if socket_id > amd_num_sockets then (-ENODEV, none)
  else
    let r := send socket_id ⟨HSMP_GET_C0_PERCENT, 0, 1, fun _ => 0, 0⟩
    if r.1 ≠ 0 then (r.1, none) else (r.1, some (r.2.headD 0))

/-- `get_ddr_bandwidth_data_raw`: requires protocol version ≥ 3, then a
1-response-word `HSMP_GET_DDR_BANDWIDTH` exchange on socket 0; writes its
output (`some`) only on success. -/
def get_ddr_bandwidth_data_raw (amd_hsmp_proto_ver : Nat) (send : Send) :
    Int × Option Nat :=
  if amd_hsmp_proto_ver < 3 then (-EOPNOTSUPP, none)
  else
    let r := send 0 ⟨HSMP_GET_DDR_BANDWIDTH, 0, 1, fun _ => 0, 0⟩
    if r.1 ≠ 0 then (r.1, none) else (r.1, some (r.2.headD 0))

/-- Outputs of `get_ddr_bandwidth_data`. -/
structure ddr_out where
  ret : Int
  max_bw : Option Nat
  utilized_bw : Option Nat
  bw_pct : Option Nat
deriving DecidableEq, Repr

/-- `get_ddr_bandwidth_data`: the local `u32 result` is uninitialized in the
source and the raw accessor writes it only on success, so the arbitrary
stack value it starts with is a parameter `result0`.  The three field
extractions (`result >> 20`, `(result >> 8) & 0xFFF`, `result & 0xFF`,
written here with `/` and `%`) are performed whether or not the raw exchange
succeeded. -/
def get_ddr_bandwidth_data (amd_hsmp_proto_ver : Nat) (send : Send)
    (result0 : Nat) (max_bw_null utilized_bw_null bw_pct_null : Bool) : ddr_out :=
  if max_bw_null ∧ utilized_bw_null ∧ bw_pct_null then ⟨-EINVAL, none, none, none⟩
  else
    let raw := get_ddr_bandwidth_data_raw amd_hsmp_proto_ver send
    let result := raw.2.getD result0
    ⟨raw.1,
     if max_bw_null then none else some (result / 2 ^ 20),
     if utilized_bw_null then none else some (result / 2 ^ 8 % 0x1000),
     if bw_pct_null then none else some (result % 0x100)⟩

/-! ## Startup loopback test (`hsmp_test_message`, amd_hsmp.c) -/

/-- The message sent by `hsmp_test_message` to every socket:
`HSMP_TEST` with `args[0] = 0xDEADBEEF` and one expected response word. -/
def test_msg : hsmp_message :=
  ⟨HSMP_TEST, 1, 1, fun i => if i = 0 then 0xDEADBEEF else 0, 0⟩

/-- The socket loop of `hsmp_test_message`: each iteration overwrites `err`
with this socket's exchange result; a failed exchange `continue`s, a
successful exchange with a response other than `args[0] + 1` returns
`-EBADE` at once.  After the loop the final `err` is returned. -/
def test_loop (hungs : Nat → Bool) (hws : Nat → HW) (fuel : Nat) :
    Nat → Nat → Int → Int
  | _, 0, err => err
  | s, k + 1, _ =>
    let r := send_message_pci (hungs s) test_msg (hws s) fuel
    if r.ret ≠ 0 then test_loop hungs hws fuel (s + 1) k r.ret
    else if r.response.headD 0 ≠ 0xDEADBEEF + 1 then -EBADE
    else test_loop hungs hws fuel (s + 1) k r.ret

/-- `hsmp_test_message`: run the loopback test over sockets
`0 .. amd_num_sockets - 1` (socket `s` has sticky flag `hungs s` and
hardware `hws s`). -/
def hsmp_test_message (amd_num_sockets : Nat) (hungs : Nat → Bool)
    (hws : Nat → HW) (fuel : Nat) : Int :=
  test_loop hungs hws fuel 0 amd_num_sockets 0

/-- A hardware oracle whose accesses all succeed: the status register always
reads `status` and any other register reads `data addr`. -/
def hwc (status : Nat) (data : Nat → Nat) : HW := fun _ a =>
  match a with
  | Access.wr _ _ => Except.ok 0
  | Access.rd addr =>
    if addr = SMN_HSMP_MSG_RESP then Except.ok status else Except.ok (data addr)

/-! ## Topology discovery (`get_system_topology`, amd_hsmp.c) -/

/-- The slice of `struct pci_dev` that discovery inspects: vendor id, device
id, and the (u8) number of the bus the device lives on. -/
structure PciDev where
  vendor : Nat
  device : Nat
  bus : Nat
deriving DecidableEq, Repr

def PCI_VENDOR_ID_AMD : Nat := 0x1022
def F19_IOHC_DEVID : Nat := 0x1480
def F19_MAX_NBIOS : Nat := 8
def SMN_IOHCMISC0_NB_BUS_NUM_CNTL : Nat := 0x13B10044
def SMN_IOHCMISC_OFFSET : Nat := 0x00100000

/-- `soc_devs`: virtual SOC device ids excluded from bus enumeration (the
source array's `0xFFFF` end marker is the list's end here). -/
def soc_devs : List Nat :=
  [0x1481, 0x1490, 0x1491, 0x1492, 0x1493, 0x1494, 0x1495, 0x1496, 0x1497,
   0x1498, 0x164F, 0x1650, 0x1651, 0x1652, 0x1653, 0x1654, 0x1655, 0x1656,
   0x1657, 0x1480, 0x1482, 0x1483, 0x1484, 0x1485, 0x1486, 0x1487, 0x148A,
   0x148B, 0x148C, 0x148D, 0x148E, 0x149A, 0x7901, 0x790B, 0x790E]

/-- `is_soc_dev`: AMD vendor and device id in the `soc_devs` table. -/
def is_soc_dev (d : PciDev) : Bool :=
  decide (d.vendor = PCI_VENDOR_ID_AMD) && soc_devs.contains d.device

/-- One entry of the `nbios[MAX_NBIOS]` lookup table (`struct nbio_dev`). -/
structure nbio_dev where
  dev : Option PciDev
  socket_id : Nat
  bus_base : Nat
  bus_limit : Nat
  id : Nat
deriving DecidableEq, Repr

/-- An `nbios[]` slot as left by the initialization loops: `bus_base = 0xFF`,
everything else zero (static storage). -/
def default_nbio : nbio_dev := ⟨none, 0, 0xFF, 0, 0⟩

/-- The device-enumeration loop of `get_system_topology`: walk all PCI
devices; an AMD IOHC (devid 0x1480) appends a tile record (failing when a
ninth is found) and logs its bus; a virtual SOC device is skipped; any other
device triggers the `MAX_PCI_BUSSES` overflow check against the logged
busses. -/
def enum_devs : List PciDev → List (PciDev × Nat) → List Nat →
    Except Int (List (PciDev × Nat) × List Nat)
  | [], nbios, busses => Except.ok (nbios, busses)
  | d :: rest, nbios, busses =>
    if d.vendor = PCI_VENDOR_ID_AMD ∧ d.device = F19_IOHC_DEVID then
      if nbios.length = MAX_NBIOS then Except.error (-ENOTSUPP)
      else enum_devs rest (nbios ++ [(d, d.bus)]) (busses ++ [d.bus])
    else if is_soc_dev d then enum_devs rest nbios busses
    else
      if d.bus ∈ busses then enum_devs rest nbios busses
      else if busses.length = MAX_PCI_BUSSES then Except.error (-ENOTSUPP)
      else enum_devs rest nbios busses

/-- One pass of the source's in-place selection sort: scanning the tail, the
running minimum ends up in front.  Returns the selected element and the
remaining elements. -/
def selMin {α : Type} (key : α → Nat) : α → List α → α × List α
  | x, [] => (x, [])
  | x, y :: ys =>
    if key y < key x then
      let r := selMin key y ys
      (r.1, x :: r.2)
    else
      let r := selMin key x ys
      (r.1, y :: r.2)

/-- Selection sort, pass by pass; the `fuel` is the number of passes (one
per slot), matching the source's `for (i = 0; ...)` loop. -/
def selSortAux {α : Type} (key : α → Nat) : Nat → List α → List α
  | 0, _ => []
  | _ + 1, [] => []
  | n + 1, x :: xs =>
    let r := selMin key x xs
    r.1 :: selSortAux key n r.2

/-- The source's sort of `nbios[]` by `bus_base` ascending. -/
def selSort {α : Type} (key : α → Nat) (l : List α) : List α :=
  selSortAux key l.length l

/-- The bus-limit loop: each tile's limit is the next tile's base minus 1,
and the last tile's limit is `0xFF`. -/
def calcLimits : List (PciDev × Nat) → List nbio_dev
  | [] => []
  | [(d, b)] => [⟨some d, 0, b, 0xFF, 0⟩]
  | (d, b) :: (d', b') :: rest =>
    ⟨some d, 0, b, b' - 1, 0⟩ :: calcLimits ((d', b') :: rest)

/-- The `sockets[i >> 2].dev` caching inside the sort loop: slot 0 is cached
when pass `i = 0` runs (i.e. when the loop bound `num_nbios - 1` exceeds 0)
and slot 1 when pass `i = 4` runs. -/
def cacheSockets (sorted : List (PciDev × Nat)) (num_nbios : Nat) :
    List (Option PciDev) :=
  [if 0 < num_nbios - 1 then (sorted[0]?).map Prod.fst else none,
   if 4 < num_nbios - 1 then (sorted[4]?).map Prod.fst else none]

/-- `bus_to_nbio`: index of the first `nbios[]` slot whose
`[bus_base, bus_limit]` range contains `bus_num`. -/
def bus_to_nbio (nbios : List nbio_dev) (bus_num : Nat) : Option Nat :=
  nbios.findIdx? fun nb => decide (nb.bus_base ≤ bus_num ∧ bus_num ≤ nb.bus_limit)

/-- The final loop of `get_system_topology`: for each logical tile `i`
(socket `i >> 2`, NBIO id `i & 3`), read `NB_BUS_NUM_CNTL` of that socket's
IOHCMISC[id] through the socket's cached device, take the low byte as the
authoritative base bus, look the base up in the table and stamp that record
with the socket id and NBIO id.  Any read failure or unmapped base is fatal
(`-ENODEV`). -/
def remapLoop (smn : PciDev → Nat → Except Int Nat) (socks : List (Option PciDev)) :
    Nat → Nat → List nbio_dev → Except Int (List nbio_dev)
  | 0, _, arr => Except.ok arr
  | k + 1, i, arr =>
    match socks.getD (i / 4) none with
    | none => Except.error (-ENODEV)
    | some d =>
      match smn d (SMN_IOHCMISC0_NB_BUS_NUM_CNTL + i % 4 * SMN_IOHCMISC_OFFSET) with
      | Except.error _ => Except.error (-ENODEV)
      | Except.ok val =>
        match bus_to_nbio arr (val % 256) with
        | none => Except.error (-ENODEV)
        | some j =>
          let nb := arr.getD j default_nbio
          remapLoop smn socks k (i + 1)
            (arr.set j { nb with socket_id := i / 4, id := i % 4 })

/-- The state `get_system_topology` publishes on success: the 8-slot
`nbios[]` table, `num_nbios`, `amd_num_sockets`, the per-socket cached
devices, and the logged PCI busses. -/
structure topology_out where
  nbios : List nbio_dev
  num_nbios : Nat
  amd_num_sockets : Nat
  sockets_dev : List (Option PciDev)
  pci_busses : List Nat
deriving DecidableEq, Repr

/-- `get_system_topology` (amd_hsmp.c): enumerate devices, reject tile
counts that are not multiples of `F19_MAX_NBIOS / 2`, compute
`amd_num_sockets = num_nbios >> 2`, sort tiles by bus base, cache each
socket's IOHC0 device, compute bus limits, and run the authoritative
IOHCMISC remap.  `smn` models `smu_pci_read` of `NB_BUS_NUM_CNTL` through a
given device. -/
def get_system_topology (devs : List PciDev)
    (smn : PciDev → Nat → Except Int Nat) : Except Int topology_out :=
  match enum_devs devs [] [] with
  | Except.error e => Except.error e
  | Except.ok (nbios0, busses) =>
    if nbios0.length % (F19_MAX_NBIOS / 2) ≠ 0 then Except.error (-ENOTSUPP)
    else
      let num_nbios := nbios0.length
      let sorted := selSort (fun p => p.2) nbios0
      let socks := cacheSockets sorted num_nbios
      let table := calcLimits sorted ++ List.replicate (MAX_NBIOS - num_nbios) default_nbio
      match remapLoop smn socks num_nbios 0 table with
      | Except.error e => Except.error e
      | Except.ok table2 => Except.ok ⟨table2, num_nbios, num_nbios / 4, socks, busses⟩

/-! ## Derived definitions used by the theorem statements -/

/-- An IOHC host-bridge device on bus `b` (vendor/device signature of the
tile records discovery anchors on). -/
def mkIohc (b : Nat) : PciDev := ⟨PCI_VENDOR_ID_AMD, F19_IOHC_DEVID, b⟩

/-- Number of IOHC instances in an enumeration. -/
def iohc_count (devs : List PciDev) : Nat :=
  (devs.filter fun d =>
    decide (d.vendor = PCI_VENDOR_ID_AMD ∧ d.device = F19_IOHC_DEVID)).length

/-- The tile bus bases in the order the sort loop leaves them. -/
def sortedBases (bs : List Nat) : List Nat := selSort (fun b => b) bs

theorem pci_hung_post (msg : hsmp_message) (hw : HW) (fuel : Nat) :
    (send_message_pci false msg hw fuel).hung =
      decide ((send_message_pci false msg hw fuel).ret = -ETIMEDOUT) := by
  rw [send_message_pci]
  simp only [Bool.false_eq_true, if_false]
  cases h0 : hw 0 (Access.wr SMN_HSMP_MSG_RESP HSMP_STATUS_NOT_READY) with
  | error e => rfl
  | ok v0 =>
    simp only []
    split
    · next hw2 =>
      cases h1 : hw (1 + (writeArgs hw msg.args 1 0 msg.num_args).1.length)
          (Access.wr SMN_HSMP_MSG_ID msg.msg_id) with
      | error e => rfl
      | ok v1 =>
        simp only []
        cases hp : (pollPci hw (1 + (writeArgs hw msg.args 1 0 msg.num_args).1.length + 1) fuel).2 with
        | ioErr e => rfl
        | timedOut => rfl
        | got v =>
          simp only []
          split
          · rfl
          split
          · rfl
          split
          · rfl
          · rfl
    · rfl

theorem search_msg_list_not_mem {m : Nat} : ∀ {l : List Nat}, m ∉ l →
    search_msg_list m l = -EINVAL
  | [], _ => rfl
  | x :: xs, h => by
    have hx : m ≠ x := fun hc => h (hc ▸ List.mem_cons_self x xs)
    have hxs : m ∉ xs := fun hc => h (List.mem_cons_of_mem x hc)
    simp [search_msg_list, hx, search_msg_list_not_mem hxs]

/-- C2: once an exchange on a socket times out the sticky `hung` flag is set;
with the flag set, `send_message_pci` returns `-ETIMEDOUT` at once, performs
no register access, and leaves the flag set; and the flag is set after a call
exactly when it was already set or the call returned the timeout error (so it
is never set by any other error). -/
theorem c2_hung_flag_sticky (hung : Bool) (msg : hsmp_message) (hw : HW) (fuel : Nat) :
    (hung = true →
      send_message_pci hung msg hw fuel =
        ⟨-ETIMEDOUT, [], [], true⟩) ∧
    ((send_message_pci hung msg hw fuel).hung = true ↔
      (hung = true ∨ (send_message_pci hung msg hw fuel).ret = -ETIMEDOUT)) := by
  constructor
  · intro h; subst h; rfl
  · cases hung with
    | true => simp [send_message_pci]
    | false =>
      rw [pci_hung_post]
      simp

theorem c2_hung_flag_sticky_witness :
    (true = true) ∧
    (send_message_pci true ⟨HSMP_TEST, 0, 0, fun _ => 0, 0⟩ (hwc 1 fun _ => 0) 1 =
        ⟨-ETIMEDOUT, [], [], true⟩) ∧
    ((send_message_pci true ⟨HSMP_TEST, 0, 0, fun _ => 0, 0⟩ (hwc 1 fun _ => 0) 1).hung = true ↔
      (true = true ∨
        (send_message_pci true ⟨HSMP_TEST, 0, 0, fun _ => 0, 0⟩ (hwc 1 fun _ => 0) 1).ret =
          -ETIMEDOUT)) :=
  ⟨rfl,
   (c2_hung_flag_sticky true ⟨HSMP_TEST, 0, 0, fun _ => 0, 0⟩ (hwc 1 fun _ => 0) 1).1 rfl,
   (c2_hung_flag_sticky true ⟨HSMP_TEST, 0, 0, fun _ => 0, 0⟩ (hwc 1 fun _ => 0) 1).2⟩

/-- C6: a message with `num_args > 8`, `response_sz > 8`, or an identifier
outside `[HSMP_TEST, HSMP_MSG_ID_MAX)` is rejected by `hsmp_send_message`
with `-EINVAL` and an empty access trace — no status-register clear,
argument write, or trigger write is performed. -/
theorem c6_validation_before_any_access (msg : hsmp_message) (hw : HW) (fuel : Nat)
    (semOk : Bool)
    (hbad : msg.num_args > HSMP_MAX_MSG_LEN ∨ msg.response_sz > HSMP_MAX_MSG_LEN ∨
      msg.msg_id < HSMP_TEST ∨ msg.msg_id ≥ HSMP_MSG_ID_MAX) :
    hsmp_send_message true semOk msg hw fuel = ⟨-EINVAL, [], []⟩ := by
  by_cases hid : msg.msg_id < HSMP_TEST ∨ msg.msg_id ≥ HSMP_MSG_ID_MAX
  · simp [hsmp_send_message, hid]
  · have hargs : msg.num_args > HSMP_MAX_MSG_LEN ∨ msg.response_sz > HSMP_MAX_MSG_LEN := by
      rcases hbad with h | h | h | h
      · exact Or.inl h
      · exact Or.inr h
      · exact absurd (Or.inl h) hid
      · exact absurd (Or.inr h) hid
    simp [hsmp_send_message, hid, hargs]

theorem c6_validation_before_any_access_witness :
    ((⟨HSMP_TEST, 9, 0, fun _ => 0, 0⟩ : hsmp_message).num_args > HSMP_MAX_MSG_LEN ∨
      (⟨HSMP_TEST, 9, 0, fun _ => 0, 0⟩ : hsmp_message).response_sz > HSMP_MAX_MSG_LEN ∨
      (⟨HSMP_TEST, 9, 0, fun _ => 0, 0⟩ : hsmp_message).msg_id < HSMP_TEST ∨
      (⟨HSMP_TEST, 9, 0, fun _ => 0, 0⟩ : hsmp_message).msg_id ≥ HSMP_MSG_ID_MAX) ∧
    hsmp_send_message true true ⟨HSMP_TEST, 9, 0, fun _ => 0, 0⟩ (hwc 1 fun _ => 0) 1 =
      ⟨-EINVAL, [], []⟩ :=
  ⟨Or.inl (by decide),
   c6_validation_before_any_access ⟨HSMP_TEST, 9, 0, fun _ => 0, 0⟩ (hwc 1 fun _ => 0) 1 true
     (Or.inl (by decide))⟩

/-- C7: through the character-device entry point, a write-only opener's
message is rejected with `-EINVAL` before the transport is invoked (empty
access trace) unless its identifier is in the SET list, and a read-only
opener's message is likewise rejected unless its identifier is in the GET
list. -/
theorem c7_ioctl_direction_validation (msg : hsmp_message) (nbRoot semOk : Bool)
    (hw : HW) (fuel : Nat) :
    (msg.msg_id ∉ hsmp_set_msgs →
      hsmp_ioctl true false msg nbRoot semOk hw fuel = ⟨-EINVAL, [], []⟩) ∧
    (msg.msg_id ∉ hsmp_get_msgs →
      hsmp_ioctl false true msg nbRoot semOk hw fuel = ⟨-EINVAL, [], []⟩) := by
  constructor
  · intro h
    have hs := search_msg_list_not_mem h
    simp [hsmp_ioctl, hs, EINVAL]
  · intro h
    have hs := search_msg_list_not_mem h
    simp [hsmp_ioctl, hs, EINVAL]

theorem c7_ioctl_direction_validation_witness :
    ((HSMP_GET_SOCKET_POWER : Nat) ∉ hsmp_set_msgs) ∧
    hsmp_ioctl true false ⟨HSMP_GET_SOCKET_POWER, 0, 1, fun _ => 0, 0⟩ true true
        (hwc 1 fun _ => 0) 1 = ⟨-EINVAL, [], []⟩ ∧
    ((HSMP_SET_DF_PSTATE : Nat) ∉ hsmp_get_msgs) ∧
    hsmp_ioctl false true ⟨HSMP_SET_DF_PSTATE, 1, 0, fun _ => 0, 0⟩ true true
        (hwc 1 fun _ => 0) 1 = ⟨-EINVAL, [], []⟩ :=
  ⟨by decide,
   (c7_ioctl_direction_validation ⟨HSMP_GET_SOCKET_POWER, 0, 1, fun _ => 0, 0⟩ true true
     (hwc 1 fun _ => 0) 1).1 (by decide),
   by decide,
   (c7_ioctl_direction_validation ⟨HSMP_SET_DF_PSTATE, 1, 0, fun _ => 0, 0⟩ true true
     (hwc 1 fun _ => 0) 1).2 (by decide)⟩

/-- C9: `hsmp_get_c0_residency` rejects a socket index with `-ENODEV` only
when it is strictly greater than `amd_num_sockets`; at any index `≤`
`amd_num_sockets` (in particular the out-of-range index equal to it) the
guard passes and the exchange outcome is returned.  Every other per-socket
getter (power, power limit, proc-hot, fabric clocks, max cclk) rejects every
index `≥ amd_num_sockets` with `-ENODEV`. -/
theorem c9_c0_residency_off_by_one (send : Send) (n s : Nat) :
    (s > n → hsmp_get_c0_residency send n s false = (-ENODEV, none)) ∧
    (s ≤ n → hsmp_get_c0_residency send n s false =
      (let r := send s ⟨HSMP_GET_C0_PERCENT, 0, 1, fun _ => 0, 0⟩
       if r.1 ≠ 0 then (r.1, none) else (r.1, some (r.2.headD 0)))) ∧
    (s ≥ n →
      hsmp_get_power send n s false = (-ENODEV, none) ∧
      hsmp_get_power_limit send n s false = (-ENODEV, none) ∧
      hsmp_get_proc_hot send n s false = (-ENODEV, none) ∧
      hsmp_get_fabric_clocks send n s false false = (-ENODEV, none, none) ∧
      hsmp_get_max_cclk send n s false = (-ENODEV, none)) := by
  refine ⟨fun h => ?_, fun h => ?_, fun h => ?_⟩
  · simp [hsmp_get_c0_residency, h]
  · have h' : ¬ s > n := by omega
    simp [hsmp_get_c0_residency, h']
  · exact ⟨by simp [hsmp_get_power, h], by simp [hsmp_get_power_limit, h],
      by simp [hsmp_get_proc_hot, h], by simp [hsmp_get_fabric_clocks, h],
      by simp [hsmp_get_max_cclk, h]⟩

theorem c9_c0_residency_off_by_one_witness :
    (1 ≤ 1) ∧
    hsmp_get_c0_residency (fun _ _ => (0, [55])) 1 1 false =
      (let r := (fun (_ : Nat) (_ : hsmp_message) => ((0 : Int), [55])) 1
          ⟨HSMP_GET_C0_PERCENT, 0, 1, fun _ => 0, 0⟩
       if r.1 ≠ 0 then (r.1, none) else (r.1, some (r.2.headD 0))) ∧
    (1 ≥ 1) ∧
    hsmp_get_power (fun _ _ => (0, [55])) 1 1 false = (-ENODEV, none) :=
  ⟨le_refl 1,
   (c9_c0_residency_off_by_one (fun _ _ => (0, [55])) 1 1).2.1 (le_refl 1),
   le_refl 1,
   ((c9_c0_residency_off_by_one (fun _ _ => (0, [55])) 1 1).2.2 (le_refl 1)).1⟩


/-- C10: when the raw DDR-bandwidth exchange fails — in particular in the
unsupported-protocol case (`amd_hsmp_proto_ver < 3`) and whenever the
underlying exchange returns a nonzero code — `get_ddr_bandwidth_data` still
derives values from the undefined local `result` word (`result0`) and writes
them through every non-NULL output pointer before returning the error. -/
theorem c10_ddr_outputs_written_on_error (send : Send) (proto result0 : Nat)
    (mN uN pN : Bool) (hnn : ¬(mN = true ∧ uN = true ∧ pN = true))
    (herr : proto < 3 ∨ (send 0 ⟨HSMP_GET_DDR_BANDWIDTH, 0, 1, fun _ => 0, 0⟩).1 ≠ 0) :
    (get_ddr_bandwidth_data proto send result0 mN uN pN).ret ≠ 0 ∧
    (get_ddr_bandwidth_data proto send result0 mN uN pN).max_bw =
      (if mN then none else some (result0 / 2 ^ 20)) ∧
    (get_ddr_bandwidth_data proto send result0 mN uN pN).utilized_bw =
      (if uN then none else some (result0 / 2 ^ 8 % 0x1000)) ∧
    (get_ddr_bandwidth_data proto send result0 mN uN pN).bw_pct =
      (if pN then none else some (result0 % 0x100)) := by
  have hnone : (get_ddr_bandwidth_data_raw proto send).2 = none := by
    by_cases h3 : proto < 3
    · simp [get_ddr_bandwidth_data_raw, h3]
    · rcases herr with h | h
      · exact absurd h h3
      · simp [get_ddr_bandwidth_data_raw, h3, h]
  have hne : (get_ddr_bandwidth_data_raw proto send).1 ≠ 0 := by
    by_cases h3 : proto < 3
    · simp [get_ddr_bandwidth_data_raw, h3, EOPNOTSUPP]
    · rcases herr with h | h
      · exact absurd h h3
      · simp [get_ddr_bandwidth_data_raw, h3, h]
  refine ⟨?_, ?_, ?_, ?_⟩ <;>
    simp [get_ddr_bandwidth_data, hnn, hnone, hne]

theorem c10_ddr_outputs_written_on_error_witness :
    (¬((false : Bool) = true ∧ (false : Bool) = true ∧ (false : Bool) = true)) ∧
    ((2 : Nat) < 3 ∨ ((fun (_ : Nat) (_ : hsmp_message) => ((0 : Int), ([] : List Nat))) 0
        ⟨HSMP_GET_DDR_BANDWIDTH, 0, 1, fun _ => 0, 0⟩).1 ≠ 0) ∧
    ((get_ddr_bandwidth_data 2 (fun _ _ => (0, [])) 0xABCDEF12 false false false).ret ≠ 0 ∧
     (get_ddr_bandwidth_data 2 (fun _ _ => (0, [])) 0xABCDEF12 false false false).max_bw =
       (if false then none else some (0xABCDEF12 / 2 ^ 20)) ∧
     (get_ddr_bandwidth_data 2 (fun _ _ => (0, [])) 0xABCDEF12 false false false).utilized_bw =
       (if false then none else some (0xABCDEF12 / 2 ^ 8 % 0x1000)) ∧
     (get_ddr_bandwidth_data 2 (fun _ _ => (0, [])) 0xABCDEF12 false false false).bw_pct =
       (if false then none else some (0xABCDEF12 % 0x100))) :=
  ⟨by decide, Or.inl (by decide),
   c10_ddr_outputs_written_on_error (fun _ _ => (0, [])) 2 0xABCDEF12 false false false
     (by decide) (Or.inl (by decide))⟩

/-- C8 (failing input): with two sockets where socket 0's exchange fails with
the timeout error (its sticky flag is set) and socket 1's exchange succeeds
with the correct loopback response `0xDEADBEEF + 1`, `hsmp_test_message`
returns 0 — the `err` of socket 0 is overwritten by socket 1's iteration, so
the failed exchange is silently ignored, contradicting the claim (and the
source's own comment that a timeout "on either socket" prevents loading). -/
theorem c8_test_message_swallows_earlier_failure :
    hsmp_test_message 2 (fun s => decide (s = 0))
      (fun _ => hwc HSMP_STATUS_OK fun _ => 0xDEADBEF0) 1 = 0 := by
  decide

/-- C5 (counterexample): an enumeration with no IOHC devices at all — zero
tiles, neither a 1-socket (4-tile) nor a 2-socket (8-tile) configuration —
is accepted by `get_system_topology`: it returns success with
`amd_num_sockets = 0` instead of failing. -/
theorem c5_zero_tiles_accepted :
    get_system_topology [] (fun _ _ => Except.error (-1)) =
      Except.ok ⟨List.replicate 8 default_nbio, 0, 0, [none, none], []⟩ := by
  rfl

theorem writeArgs_err (hw : HW) (args : Nat → Nat) :
    ∀ k t i, (writeArgs hw args t i k).2 = 0 ∨
      ∃ t' a, hw t' a = Except.error (writeArgs hw args t i k).2
  | 0, _, _ => Or.inl rfl
  | k + 1, t, i => by
    rw [writeArgs]
    cases h : hw t (Access.wr (SMN_HSMP_MSG_DATA + 4 * i) (args i)) with
    | error e => exact Or.inr ⟨t, Access.wr (SMN_HSMP_MSG_DATA + 4 * i) (args i), h⟩
    | ok v => simpa using writeArgs_err hw args k (t + 1) (i + 1)

theorem readResponses_spec (hw : HW) (hwf : ∀ t a e, hw t a = Except.error e → e ≠ 0) :
    ∀ k t i, ((readResponses hw t i k).2.2 = 0 → (readResponses hw t i k).2.1.length = k) ∧
      ((readResponses hw t i k).2.2 = 0 ∨
        ∃ t' a, hw t' a = Except.error (readResponses hw t i k).2.2)
  | 0, _, _ => ⟨fun _ => rfl, Or.inl rfl⟩
  | k + 1, t, i => by
    rw [readResponses]
    cases h : hw t (Access.rd (SMN_HSMP_MSG_DATA + 4 * i)) with
    | error e =>
      refine ⟨fun he => absurd he (hwf t _ e h), Or.inr ⟨t, _, h⟩⟩
    | ok v =>
      have ih := readResponses_spec hw hwf k (t + 1) (i + 1)
      exact ⟨fun he => by simpa using ih.1 he, by simpa using ih.2⟩

theorem pollPci_ioErr (hw : HW) :
    ∀ fuel t e, (pollPci hw t fuel).2 = PollRes.ioErr e →
      ∃ t' a, hw t' a = Except.error e
  | 0, t, e => by
    rw [pollPci]
    cases h : hw t (Access.rd SMN_HSMP_MSG_RESP) with
    | error e' => intro he; simp at he; exact ⟨t, _, he ▸ h⟩
    | ok v => intro he; simp at he; split at he <;> simp at he
  | fuel + 1, t, e => by
    rw [pollPci]
    cases h : hw t (Access.rd SMN_HSMP_MSG_RESP) with
    | error e' => intro he; simp at he; exact ⟨t, _, he ▸ h⟩
    | ok v =>
      intro he
      simp at he
      split at he
      · exact pollPci_ioErr hw fuel (t + 1) e he
      · simp at he

theorem pollPlat_err (hw : HW) :
    ∀ fuel t e, (pollPlat hw t fuel).2 = Except.error e →
      ∃ t' a, hw t' a = Except.error e
  | 0, t, e => by rw [pollPlat]; intro he; simp at he
  | fuel + 1, t, e => by
    rw [pollPlat]
    cases h : hw t (Access.rd SMN_HSMP_MSG_RESP) with
    | error e' => intro he; simp at he; exact ⟨t, _, he ▸ h⟩
    | ok v =>
      intro he
      simp at he
      split at he
      · exact pollPlat_err hw fuel (t + 1) e he
      · simp at he

theorem send_message_pci_c1 (hung : Bool) (msg : hsmp_message) (hw : HW) (fuel : Nat)
    (hwf : ∀ t a e, hw t a = Except.error e → e ≠ 0) :
    ((send_message_pci hung msg hw fuel).ret = 0 →
      (send_message_pci hung msg hw fuel).response.length = msg.response_sz) ∧
    ((send_message_pci hung msg hw fuel).ret = 0 ∨
      (send_message_pci hung msg hw fuel).ret = -ETIMEDOUT ∨
      (send_message_pci hung msg hw fuel).ret = -ENOMSG ∨
      (send_message_pci hung msg hw fuel).ret = -EFAULT ∨
      (send_message_pci hung msg hw fuel).ret = -EIO_errno ∨
      ∃ t a, hw t a = Except.error (send_message_pci hung msg hw fuel).ret) := by
  cases hung with
  | true =>
    exact ⟨fun h => by simp [send_message_pci, ETIMEDOUT] at h, Or.inr (Or.inl rfl)⟩
  | false =>
    rw [send_message_pci]
    simp only [Bool.false_eq_true, if_false]
    cases h0 : hw 0 (Access.wr SMN_HSMP_MSG_RESP HSMP_STATUS_NOT_READY) with
    | error e =>
      exact ⟨fun h => absurd h (hwf 0 _ e h0),
        Or.inr (Or.inr (Or.inr (Or.inr (Or.inr ⟨0, _, h0⟩))))⟩
    | ok v0 =>
      simp only []
      split
      · next hw2 =>
        cases h1 : hw (1 + (writeArgs hw msg.args 1 0 msg.num_args).1.length)
            (Access.wr SMN_HSMP_MSG_ID msg.msg_id) with
        | error e =>
          exact ⟨fun h => absurd h (hwf _ _ e h1),
            Or.inr (Or.inr (Or.inr (Or.inr (Or.inr ⟨_, _, h1⟩))))⟩
        | ok v1 =>
          simp only []
          cases hp : (pollPci hw (1 + (writeArgs hw msg.args 1 0 msg.num_args).1.length + 1)
              fuel).2 with
          | ioErr e =>
            obtain ⟨t', a', ha⟩ := pollPci_ioErr hw fuel _ e hp
            exact ⟨fun h => absurd h (hwf t' a' e ha),
              Or.inr (Or.inr (Or.inr (Or.inr (Or.inr ⟨t', a', ha⟩))))⟩
          | timedOut =>
            exact ⟨fun h => by simp [ETIMEDOUT] at h, Or.inr (Or.inl rfl)⟩
          | got v =>
            simp only []
            split
            · exact ⟨fun h => by simp [ENOMSG] at h, Or.inr (Or.inr (Or.inl rfl))⟩
            split
            · exact ⟨fun h => by simp [EFAULT] at h,
                Or.inr (Or.inr (Or.inr (Or.inl rfl)))⟩
            split
            · exact ⟨fun h => by simp [EIO_errno] at h,
                Or.inr (Or.inr (Or.inr (Or.inr (Or.inl rfl))))⟩
            · have hr := readResponses_spec hw hwf msg.response_sz
                (1 + (writeArgs hw msg.args 1 0 msg.num_args).1.length + 1 +
                  (pollPci hw (1 + (writeArgs hw msg.args 1 0 msg.num_args).1.length + 1)
                    fuel).1.length) 0
              refine ⟨fun h => hr.1 h, ?_⟩
              rcases hr.2 with h | ⟨t', a', ha⟩
              · exact Or.inl h
              · exact Or.inr (Or.inr (Or.inr (Or.inr (Or.inr ⟨t', a', ha⟩))))
      · next hw2 =>
        rcases writeArgs_err hw msg.args msg.num_args 1 0 with h | ⟨t', a', ha⟩
        · exact absurd h hw2
        · exact ⟨fun h => absurd h hw2, Or.inr (Or.inr (Or.inr (Or.inr (Or.inr ⟨t', a', ha⟩))))⟩

theorem hsmp_send_message_core_c1 (msg : hsmp_message) (hw : HW) (fuel : Nat)
    (hwf : ∀ t a e, hw t a = Except.error e → e ≠ 0) :
    ((__hsmp_send_message msg hw fuel).ret = 0 →
      (__hsmp_send_message msg hw fuel).response.length = msg.response_sz) ∧
    ((__hsmp_send_message msg hw fuel).ret = 0 ∨
      (__hsmp_send_message msg hw fuel).ret = -ETIMEDOUT ∨
      (__hsmp_send_message msg hw fuel).ret = -ENOMSG ∨
      (__hsmp_send_message msg hw fuel).ret = -EINVAL ∨
      (__hsmp_send_message msg hw fuel).ret = -EIO_errno ∨
      ∃ t a, hw t a = Except.error (__hsmp_send_message msg hw fuel).ret) := by
  rw [__hsmp_send_message]
  cases h0 : hw 0 (Access.wr SMN_HSMP_MSG_RESP HSMP_STATUS_NOT_READY) with
  | error e =>
    exact ⟨fun h => absurd h (hwf 0 _ e h0),
      Or.inr (Or.inr (Or.inr (Or.inr (Or.inr ⟨0, _, h0⟩))))⟩
  | ok v0 =>
    simp only []
    split
    · next hw2 =>
      cases h1 : hw (1 + (writeArgs hw msg.args 1 0 msg.num_args).1.length)
          (Access.wr SMN_HSMP_MSG_ID msg.msg_id) with
      | error e =>
        exact ⟨fun h => absurd h (hwf _ _ e h1),
          Or.inr (Or.inr (Or.inr (Or.inr (Or.inr ⟨_, _, h1⟩))))⟩
      | ok v1 =>
        simp only []
        cases hp : (pollPlat hw (1 + (writeArgs hw msg.args 1 0 msg.num_args).1.length + 1)
            fuel).2 with
        | error e =>
          obtain ⟨t', a', ha⟩ := pollPlat_err hw fuel _ e hp
          exact ⟨fun h => absurd h (hwf t' a' e ha),
            Or.inr (Or.inr (Or.inr (Or.inr (Or.inr ⟨t', a', ha⟩))))⟩
        | ok v =>
          simp only []
          split
          · exact ⟨fun h => by simp [ETIMEDOUT] at h, Or.inr (Or.inl rfl)⟩
          split
          · exact ⟨fun h => by simp [ENOMSG] at h, Or.inr (Or.inr (Or.inl rfl))⟩
          split
          · exact ⟨fun h => by simp [EINVAL] at h,
              Or.inr (Or.inr (Or.inr (Or.inl rfl)))⟩
          split
          · exact ⟨fun h => by simp [EIO_errno] at h,
              Or.inr (Or.inr (Or.inr (Or.inr (Or.inl rfl))))⟩
          · have hr := readResponses_spec hw hwf msg.response_sz
              (1 + (writeArgs hw msg.args 1 0 msg.num_args).1.length + 1 +
                (pollPlat hw (1 + (writeArgs hw msg.args 1 0 msg.num_args).1.length + 1)
                  fuel).1.length) 0
            refine ⟨fun h => hr.1 h, ?_⟩
            rcases hr.2 with h | ⟨t', a', ha⟩
            · exact Or.inl h
            · exact Or.inr (Or.inr (Or.inr (Or.inr (Or.inr ⟨t', a', ha⟩))))
    · next hw2 =>
      rcases writeArgs_err hw msg.args msg.num_args 1 0 with h | ⟨t', a', ha⟩
      · exact absurd h hw2
      · exact ⟨fun h => absurd h hw2, Or.inr (Or.inr (Or.inr (Or.inr (Or.inr ⟨t', a', ha⟩))))⟩

/-- C1: for any socket state and valid message, the mailbox exchange (both
`send_message_pci` and `__hsmp_send_message`) either returns success having
read back exactly `response_sz` response words, or returns a defined error —
the timeout, invalid-message, request-failed/invalid-input, or unknown-status
code, or a register-access code propagated from the port; it never returns
success with fewer than `response_sz` response words. -/
theorem c1_no_partial_response (hung : Bool) (msg : hsmp_message) (hw : HW) (fuel : Nat)
    (hwf : ∀ t a e, hw t a = Except.error e → e ≠ 0)
    (_hid1 : HSMP_TEST ≤ msg.msg_id) (__hid2 : msg.msg_id < HSMP_MSG_ID_MAX)
    (_hargs : msg.num_args ≤ HSMP_MAX_MSG_LEN) (__hresp : msg.response_sz ≤ HSMP_MAX_MSG_LEN) :
    (((send_message_pci hung msg hw fuel).ret = 0 →
        (send_message_pci hung msg hw fuel).response.length = msg.response_sz) ∧
      ((send_message_pci hung msg hw fuel).ret = 0 ∨
        (send_message_pci hung msg hw fuel).ret = -ETIMEDOUT ∨
        (send_message_pci hung msg hw fuel).ret = -ENOMSG ∨
        (send_message_pci hung msg hw fuel).ret = -EFAULT ∨
        (send_message_pci hung msg hw fuel).ret = -EIO_errno ∨
        ∃ t a, hw t a = Except.error (send_message_pci hung msg hw fuel).ret)) ∧
    (((__hsmp_send_message msg hw fuel).ret = 0 →
        (__hsmp_send_message msg hw fuel).response.length = msg.response_sz) ∧
      ((__hsmp_send_message msg hw fuel).ret = 0 ∨
        (__hsmp_send_message msg hw fuel).ret = -ETIMEDOUT ∨
        (__hsmp_send_message msg hw fuel).ret = -ENOMSG ∨
        (__hsmp_send_message msg hw fuel).ret = -EINVAL ∨
        (__hsmp_send_message msg hw fuel).ret = -EIO_errno ∨
        ∃ t a, hw t a = Except.error (__hsmp_send_message msg hw fuel).ret)) :=
  ⟨send_message_pci_c1 hung msg hw fuel hwf, hsmp_send_message_core_c1 msg hw fuel hwf⟩

theorem c1_no_partial_response_witness :
    (∀ t a e, hwc 1 (fun _ => 7) t a = Except.error e → e ≠ 0) ∧
    ((send_message_pci false ⟨HSMP_GET_FCLK_MCLK, 0, 2, fun _ => 0, 0⟩
        (hwc 1 fun _ => 7) 1).ret = 0 →
      (send_message_pci false ⟨HSMP_GET_FCLK_MCLK, 0, 2, fun _ => 0, 0⟩
        (hwc 1 fun _ => 7) 1).response.length = 2) := by
  have hwf0 : ∀ t a e, hwc 1 (fun _ => 7) t a = Except.error e → e ≠ 0 := by
    intro t a e h
    cases a with
    | wr addr val => simp [hwc] at h
    | rd addr => by_cases hr : addr = SMN_HSMP_MSG_RESP <;> simp [hwc, hr] at h
  exact ⟨hwf0, fun h =>
    (c1_no_partial_response false ⟨HSMP_GET_FCLK_MCLK, 0, 2, fun _ => 0, 0⟩
      (hwc 1 fun _ => 7) 1 hwf0 (by decide) (by decide) (by decide) (by decide)).1.1 h⟩

theorem writeArgs_hwc (s : Nat) (d : Nat → Nat) (args : Nat → Nat) :
    ∀ k t i, (writeArgs (hwc s d) args t i k).2 = 0
  | 0, _, _ => rfl
  | k + 1, t, i => by
    rw [writeArgs]
    simpa [hwc] using writeArgs_hwc s d args k (t + 1) (i + 1)

theorem readResponses_hwc (s : Nat) (d : Nat → Nat) :
    ∀ k t i, (readResponses (hwc s d) t i k).2.2 = 0
  | 0, _, _ => rfl
  | k + 1, t, i => by
    rw [readResponses]
    have hne : SMN_HSMP_MSG_DATA + 4 * i ≠ SMN_HSMP_MSG_RESP := by
      simp only [SMN_HSMP_MSG_DATA, SMN_HSMP_MSG_RESP]
      omega
    simpa [hwc, hne] using readResponses_hwc s d k (t + 1) (i + 1)

theorem pollPci_hwc (s : Nat) (d : Nat → Nat) :
    ∀ fuel t, (pollPci (hwc s d) t fuel).2 =
      if s = HSMP_STATUS_NOT_READY then PollRes.timedOut else PollRes.got s
  | 0, t => by
    rw [pollPci]; simp [hwc]
  | fuel + 1, t => by
    rw [pollPci]
    by_cases hs : s = HSMP_STATUS_NOT_READY
    · simpa [hwc, hs] using pollPci_hwc s d fuel (t + 1)
    · simp [hwc, hs]

theorem pollPlat_hwc_nr (d : Nat → Nat) :
    ∀ fuel t, (pollPlat (hwc HSMP_STATUS_NOT_READY d) t fuel).2 =
      Except.ok HSMP_STATUS_NOT_READY
  | 0, _ => rfl
  | fuel + 1, t => by
    rw [pollPlat]
    simpa [hwc] using pollPlat_hwc_nr d fuel (t + 1)

theorem pollPlat_hwc (s : Nat) (d : Nat → Nat) (fuel : Nat) (hf : 0 < fuel) :
    ∀ t, (pollPlat (hwc s d) t fuel).2 = Except.ok s := by
  intro t
  by_cases hs : s = HSMP_STATUS_NOT_READY
  · subst hs; exact pollPlat_hwc_nr d fuel t
  · match fuel, hf with
    | f + 1, _ =>
      rw [pollPlat]
      simp [hwc, hs]

theorem hwc_wr (s : Nat) (d : Nat → Nat) (t a v : Nat) :
    hwc s d t (Access.wr a v) = Except.ok 0 := rfl

/-- C3: when the status register leaves the not-ready sentinel, the exchange
maps the terminal status word to its result exactly as the claim states:
`0x01` = success, `0xFE` = invalid-message error (`-ENOMSG`), `0xFF` =
request-failed error (`-EFAULT` in the PCI driver, `-EINVAL` under the
platform driver's `HSMP_ERR_INVALID_INPUT` name for the same status), any
other value = generic I/O error (`-EIO`); a status still equal to the
sentinel at the deadline yields the timeout error (`-ETIMEDOUT`). -/
theorem c3_status_word_mapping (status : Nat) (data : Nat → Nat) (msg : hsmp_message)
    (fuel : Nat) (hf : 0 < fuel) :
    (send_message_pci false msg (hwc status data) fuel).ret =
      (if status = HSMP_STATUS_NOT_READY then -ETIMEDOUT
       else if status = HSMP_STATUS_OK then 0
       else if status = HSMP_ERR_INVALID_MSG then -ENOMSG
       else if status = HSMP_ERR_REQUEST_FAIL then -EFAULT
       else -EIO_errno) ∧
    (__hsmp_send_message msg (hwc status data) fuel).ret =
      (if status = HSMP_STATUS_NOT_READY then -ETIMEDOUT
       else if status = HSMP_STATUS_OK then 0
       else if status = HSMP_ERR_INVALID_MSG then -ENOMSG
       else if status = HSMP_ERR_INVALID_INPUT then -EINVAL
       else -EIO_errno) := by
  constructor
  · rw [send_message_pci]
    simp only [Bool.false_eq_true, if_false, hwc_wr, writeArgs_hwc,
      eq_self_iff_true, if_true, pollPci_hwc, readResponses_hwc]
    by_cases h1 : status = HSMP_STATUS_NOT_READY
    · simp [h1]
    · by_cases h2 : status = HSMP_STATUS_OK
      · subst h2
        simp [HSMP_STATUS_NOT_READY, HSMP_STATUS_OK, HSMP_ERR_INVALID_MSG,
          HSMP_ERR_REQUEST_FAIL]
      · by_cases h3 : status = HSMP_ERR_INVALID_MSG
        · subst h3
          simp [HSMP_STATUS_NOT_READY, HSMP_STATUS_OK, HSMP_ERR_INVALID_MSG,
            HSMP_ERR_REQUEST_FAIL]
        · by_cases h4 : status = HSMP_ERR_REQUEST_FAIL
          · subst h4
            simp [HSMP_STATUS_NOT_READY, HSMP_STATUS_OK, HSMP_ERR_INVALID_MSG,
              HSMP_ERR_REQUEST_FAIL]
          · simp [h1, h2, h3, h4]
  · rw [__hsmp_send_message]
    simp only [hwc_wr, writeArgs_hwc, eq_self_iff_true, if_true,
      pollPlat_hwc status data fuel hf, readResponses_hwc]
    by_cases h1 : status = HSMP_STATUS_NOT_READY
    · simp [h1]
    · by_cases h2 : status = HSMP_STATUS_OK
      · subst h2
        simp [HSMP_STATUS_NOT_READY, HSMP_STATUS_OK, HSMP_ERR_INVALID_MSG,
          HSMP_ERR_INVALID_INPUT]
      · by_cases h3 : status = HSMP_ERR_INVALID_MSG
        · subst h3
          simp [HSMP_STATUS_NOT_READY, HSMP_STATUS_OK, HSMP_ERR_INVALID_MSG,
            HSMP_ERR_INVALID_INPUT]
        · by_cases h4 : status = HSMP_ERR_INVALID_INPUT
          · subst h4
            simp [HSMP_STATUS_NOT_READY, HSMP_STATUS_OK, HSMP_ERR_INVALID_MSG,
              HSMP_ERR_INVALID_INPUT]
          · simp [h1, h2, h3, h4]

theorem c3_status_word_mapping_witness :
    0 < 1 ∧
    ((send_message_pci false ⟨HSMP_TEST, 0, 0, fun _ => 0, 0⟩ (hwc 0xFE fun _ => 0) 1).ret =
      (if (0xFE : Nat) = HSMP_STATUS_NOT_READY then -ETIMEDOUT
       else if (0xFE : Nat) = HSMP_STATUS_OK then 0
       else if (0xFE : Nat) = HSMP_ERR_INVALID_MSG then -ENOMSG
       else if (0xFE : Nat) = HSMP_ERR_REQUEST_FAIL then -EFAULT
       else -EIO_errno)) ∧
    ((__hsmp_send_message ⟨HSMP_TEST, 0, 0, fun _ => 0, 0⟩ (hwc 0xFE fun _ => 0) 1).ret =
      (if (0xFE : Nat) = HSMP_STATUS_NOT_READY then -ETIMEDOUT
       else if (0xFE : Nat) = HSMP_STATUS_OK then 0
       else if (0xFE : Nat) = HSMP_ERR_INVALID_MSG then -ENOMSG
       else if (0xFE : Nat) = HSMP_ERR_INVALID_INPUT then -EINVAL
       else -EIO_errno)) :=
  ⟨Nat.one_pos,
   (c3_status_word_mapping 0xFE (fun _ => 0) ⟨HSMP_TEST, 0, 0, fun _ => 0, 0⟩ 1 Nat.one_pos).1,
   (c3_status_word_mapping 0xFE (fun _ => 0) ⟨HSMP_TEST, 0, 0, fun _ => 0, 0⟩ 1 Nat.one_pos).2⟩

theorem selMin_length {α : Type} (key : α → Nat) : ∀ (x : α) (l : List α),
    (selMin key x l).2.length = l.length
  | _, [] => rfl
  | x, y :: ys => by
    rw [selMin]
    split
    · simp [selMin_length key y ys]
    · simp [selMin_length key x ys]

theorem selMin_perm {α : Type} (key : α → Nat) : ∀ (x : α) (l : List α),
    ((selMin key x l).1 :: (selMin key x l).2).Perm (x :: l)
  | x, [] => by simp [selMin]
  | x, y :: ys => by
    rw [selMin]
    split
    · exact (List.Perm.swap x (selMin key y ys).1 (selMin key y ys).2).trans
        ((selMin_perm key y ys).cons x)
    · exact ((List.Perm.swap y (selMin key x ys).1 (selMin key x ys).2).trans
        ((selMin_perm key x ys).cons y)).trans (List.Perm.swap x y ys)

theorem selMin_min {α : Type} (key : α → Nat) : ∀ (x : α) (l : List α),
    key (selMin key x l).1 ≤ key x ∧
      ∀ y ∈ (selMin key x l).2, key (selMin key x l).1 ≤ key y
  | x, [] => ⟨le_refl _, by simp [selMin]⟩
  | x, y :: ys => by
    rw [selMin]
    split
    · next hlt =>
      have ih := selMin_min key y ys
      refine ⟨le_trans ih.1 (le_of_lt hlt), ?_⟩
      intro z hz
      rcases List.mem_cons.1 hz with rfl | hz'
      · exact le_trans ih.1 (le_of_lt hlt)
      · exact ih.2 z hz'
    · next hge =>
      have ih := selMin_min key x ys
      refine ⟨ih.1, ?_⟩
      intro z hz
      rcases List.mem_cons.1 hz with rfl | hz'
      · exact le_trans ih.1 (le_of_not_lt hge)
      · exact ih.2 z hz'

theorem selSortAux_perm {α : Type} (key : α → Nat) : ∀ (n : Nat) (l : List α),
    l.length = n → (selSortAux key n l).Perm l
  | 0, [], _ => by simp [selSortAux]
  | 0, _ :: _, h => by simp at h
  | _ + 1, [], h => by simp at h
  | n + 1, x :: xs, h => by
    rw [selSortAux]
    have hl := selMin_length key x xs
    have ih := selSortAux_perm key n (selMin key x xs).2 (by simp at h; omega)
    exact (ih.cons _).trans (selMin_perm key x xs)

theorem selSortAux_sorted {α : Type} (key : α → Nat) : ∀ (n : Nat) (l : List α),
    l.length = n → List.Pairwise (fun a b => key a ≤ key b) (selSortAux key n l)
  | 0, _, _ => by rw [selSortAux]; exact List.Pairwise.nil
  | _ + 1, [], h => by simp at h
  | n + 1, x :: xs, h => by
    rw [selSortAux]
    have hl := selMin_length key x xs
    have hlen : (selMin key x xs).2.length = n := by simp at h; omega
    refine List.Pairwise.cons ?_ (selSortAux_sorted key n _ hlen)
    intro b hb
    have hb2 : b ∈ (selMin key x xs).2 :=
      ((selSortAux_perm key n _ hlen).mem_iff).1 hb
    exact (selMin_min key x xs).2 b hb2

theorem selSort_perm {α : Type} (key : α → Nat) (l : List α) :
    (selSort key l).Perm l := selSortAux_perm key l.length l rfl

theorem selSort_sorted {α : Type} (key : α → Nat) (l : List α) :
    List.Pairwise (fun a b => key a ≤ key b) (selSort key l) :=
  selSortAux_sorted key l.length l rfl

theorem selMin_map {α β : Type} (f : α → β) (key : β → Nat) (key' : α → Nat)
    (hk : ∀ a, key (f a) = key' a) : ∀ (x : α) (l : List α),
    selMin key (f x) (l.map f) = ((selMin key' x l).1 |> f, (selMin key' x l).2.map f)
  | _, [] => by simp [selMin]
  | x, y :: ys => by
    simp only [List.map_cons]
    rw [selMin, selMin]
    rw [hk, hk]
    split
    · rw [selMin_map f key key' hk y ys]
      simp
    · rw [selMin_map f key key' hk x ys]
      simp

theorem selSortAux_map {α β : Type} (f : α → β) (key : β → Nat) (key' : α → Nat)
    (hk : ∀ a, key (f a) = key' a) : ∀ (n : Nat) (l : List α),
    selSortAux key n (l.map f) = (selSortAux key' n l).map f
  | 0, _ => by rw [selSortAux, selSortAux]; rfl
  | n + 1, [] => by rw [List.map_nil, selSortAux, selSortAux]; rfl
  | n + 1, x :: xs => by
    simp only [List.map_cons]
    rw [selSortAux, selSortAux]
    rw [selMin_map f key key' hk x xs]
    simp only [List.map_cons]
    rw [selSortAux_map f key key' hk n (selMin key' x xs).2]

theorem selSort_map {α β : Type} (f : α → β) (key : β → Nat) (key' : α → Nat)
    (hk : ∀ a, key (f a) = key' a) (l : List α) :
    selSort key (l.map f) = (selSort key' l).map f := by
  rw [selSort, selSort, List.length_map]
  exact selSortAux_map f key key' hk l.length l

theorem calcLimits_cons (d : PciDev) (b : Nat) (rest : List (PciDev × Nat)) :
    calcLimits ((d, b) :: rest) =
      (⟨some d, 0, b,
        (match rest with | [] => 0xFF | (_, b') :: _ => b' - 1), 0⟩ : nbio_dev)
        :: calcLimits rest := by
  cases rest with
  | nil => rfl
  | cons p rest' => cases p; rfl

theorem calcLimits_length : ∀ sp : List (PciDev × Nat),
    (calcLimits sp).length = sp.length
  | [] => rfl
  | (d, b) :: rest => by
    rw [calcLimits_cons]
    simp [calcLimits_length rest]

theorem calcLimits_getD (pd : PciDev × Nat) : ∀ (sp : List (PciDev × Nat)) (i : Nat),
    i < sp.length →
    (calcLimits sp).getD i default_nbio =
      ⟨some (sp.getD i pd).1, 0, (sp.getD i pd).2,
        (if i + 1 < sp.length then (sp.getD (i + 1) pd).2 - 1 else 0xFF), 0⟩
  | [], i, h => by simp at h
  | (d, b) :: rest, 0, _ => by
    rw [calcLimits_cons]
    cases rest with
    | nil => simp
    | cons p rest' => cases p; simp
  | (d, b) :: rest, i + 1, h => by
    rw [calcLimits_cons]
    rw [List.getD_cons_succ, List.getD_cons_succ, List.getD_cons_succ]
    rw [calcLimits_getD pd rest i (by simp at h; omega)]
    simp

theorem getD_set_self {α : Type} (l : List α) (i : Nat) (h : i < l.length) (x d : α) :
    (l.set i x).getD i d = x := by
  rw [List.getD_eq_getElem?_getD, List.getElem?_set_eq_of_lt x h]
  rfl

theorem getD_set_ne {α : Type} (l : List α) (i j : Nat) (h : i ≠ j) (x d : α) :
    (l.set i x).getD j d = l.getD j d := by
  rw [List.getD_eq_getElem?_getD, List.getElem?_set_ne h, ← List.getD_eq_getElem?_getD]

theorem findIdx?_from (p : α → Bool) (d : α) : ∀ (l : List α) (i j : Nat),
    j < l.length → (∀ k, k < j → p (l.getD k d) = false) → p (l.getD j d) = true →
    List.findIdx? p l i = some (i + j)
  | [], _, j, hj, _, _ => by simp at hj
  | x :: xs, i, 0, _, _, hj => by
    rw [List.findIdx?_cons]
    simp only [List.getD_cons_zero] at hj
    simp [hj]
  | x :: xs, i, j + 1, hlen, hlt, hj => by
    rw [List.findIdx?_cons]
    have hx : p x = false := by
      have := hlt 0 (Nat.succ_pos j)
      simpa using this
    rw [hx]
    simp only [Bool.false_eq_true, if_false]
    have := findIdx?_from p d xs (i + 1) j (by simp at hlen; omega)
      (fun k hk => by simpa using hlt (k + 1) (by omega))
      (by simpa using hj)
    rw [this]
    congr 1
    omega

theorem enum_devs_iohc : ∀ (bs : List Nat) (acc : List (PciDev × Nat)) (busses : List Nat),
    acc.length + bs.length ≤ MAX_NBIOS →
    enum_devs (bs.map mkIohc) acc busses =
      Except.ok (acc ++ bs.map (fun b => (mkIohc b, b)), busses ++ bs)
  | [], acc, busses, _ => by simp [enum_devs]
  | b :: bs, acc, busses, h => by
    simp only [List.map_cons]
    rw [enum_devs]
    have hv : (mkIohc b).vendor = PCI_VENDOR_ID_AMD ∧ (mkIohc b).device = F19_IOHC_DEVID :=
      ⟨rfl, rfl⟩
    rw [if_pos hv]
    have hne : ¬ acc.length = MAX_NBIOS := by
      simp only [List.length_cons] at h
      simp only [MAX_NBIOS] at h ⊢
      omega
    rw [if_neg hne]
    have hb : (mkIohc b).bus = b := rfl
    rw [hb]
    have hrec := enum_devs_iohc bs (acc ++ [(mkIohc b, b)]) (busses ++ [b])
      (by simp at h ⊢; omega)
    rw [hrec]
    simp

theorem iohc_count_cons (d : PciDev) (devs : List PciDev) :
    iohc_count (d :: devs) =
      (if d.vendor = PCI_VENDOR_ID_AMD ∧ d.device = F19_IOHC_DEVID then 1 else 0) +
        iohc_count devs := by
  by_cases h : d.vendor = PCI_VENDOR_ID_AMD ∧ d.device = F19_IOHC_DEVID
  · simp [iohc_count, h]
    omega
  · simp [iohc_count, h]

theorem enum_devs_overflow : ∀ (devs : List PciDev) (acc : List (PciDev × Nat))
    (busses : List Nat), acc.length ≤ MAX_NBIOS →
    MAX_NBIOS < acc.length + iohc_count devs →
    enum_devs devs acc busses = Except.error (-ENOTSUPP)
  | [], acc, _, hle, hgt => by
    simp [iohc_count] at hgt
    omega
  | d :: devs, acc, busses, hle, hgt => by
    rw [enum_devs]
    rw [iohc_count_cons] at hgt
    by_cases hio : d.vendor = PCI_VENDOR_ID_AMD ∧ d.device = F19_IOHC_DEVID
    · rw [if_pos hio]
      rw [if_pos hio] at hgt
      by_cases hfull : acc.length = MAX_NBIOS
      · rw [if_pos hfull]
      · rw [if_neg hfull]
        exact enum_devs_overflow devs (acc ++ [(d, d.bus)]) (busses ++ [d.bus])
          (by simp; omega) (by simp; omega)
    · rw [if_neg hio]
      rw [if_neg hio] at hgt
      by_cases hsoc : is_soc_dev d = true
      · rw [if_pos hsoc]
        exact enum_devs_overflow devs acc busses hle (by omega)
      · rw [if_neg hsoc]
        by_cases hmem : d.bus ∈ busses
        · rw [if_pos hmem]
          exact enum_devs_overflow devs acc busses hle (by omega)
        · rw [if_neg hmem]
          by_cases hbf : busses.length = MAX_PCI_BUSSES
          · rw [if_pos hbf]
          · rw [if_neg hbf]
            exact enum_devs_overflow devs acc busses hle (by omega)

theorem enum_devs_ok_length : ∀ (devs : List PciDev) (acc : List (PciDev × Nat))
    (busses : List Nat) (res : List (PciDev × Nat) × List Nat),
    enum_devs devs acc busses = Except.ok res →
    res.1.length = acc.length + iohc_count devs
  | [], acc, busses, res, h => by
    rw [enum_devs] at h
    cases h
    simp [iohc_count]
  | d :: devs, acc, busses, res, h => by
    rw [enum_devs] at h
    rw [iohc_count_cons]
    by_cases hio : d.vendor = PCI_VENDOR_ID_AMD ∧ d.device = F19_IOHC_DEVID
    · rw [if_pos hio] at h
      rw [if_pos hio]
      by_cases hfull : acc.length = MAX_NBIOS
      · rw [if_pos hfull] at h; cases h
      · rw [if_neg hfull] at h
        have := enum_devs_ok_length devs (acc ++ [(d, d.bus)]) (busses ++ [d.bus]) res h
        simp at this
        omega
    · rw [if_neg hio] at h
      rw [if_neg hio]
      by_cases hsoc : is_soc_dev d = true
      · rw [if_pos hsoc] at h
        have := enum_devs_ok_length devs acc busses res h
        omega
      · rw [if_neg hsoc] at h
        by_cases hmem : d.bus ∈ busses
        · rw [if_pos hmem] at h
          have := enum_devs_ok_length devs acc busses res h
          omega
        · rw [if_neg hmem] at h
          by_cases hbf : busses.length = MAX_PCI_BUSSES
          · rw [if_pos hbf] at h; cases h
          · rw [if_neg hbf] at h
            have := enum_devs_ok_length devs acc busses res h
            omega

theorem enum_devs_error_val : ∀ (devs : List PciDev) (acc : List (PciDev × Nat))
    (busses : List Nat) (e : Int),
    enum_devs devs acc busses = Except.error e → e = -ENOTSUPP
  | [], _, _, _, h => by rw [enum_devs] at h; cases h
  | d :: devs, acc, busses, e, h => by
    rw [enum_devs] at h
    by_cases hio : d.vendor = PCI_VENDOR_ID_AMD ∧ d.device = F19_IOHC_DEVID
    · rw [if_pos hio] at h
      by_cases hfull : acc.length = MAX_NBIOS
      · rw [if_pos hfull] at h; cases h; rfl
      · rw [if_neg hfull] at h
        exact enum_devs_error_val devs _ _ e h
    · rw [if_neg hio] at h
      by_cases hsoc : is_soc_dev d = true
      · rw [if_pos hsoc] at h
        exact enum_devs_error_val devs _ _ e h
      · rw [if_neg hsoc] at h
        by_cases hmem : d.bus ∈ busses
        · rw [if_pos hmem] at h
          exact enum_devs_error_val devs _ _ e h
        · rw [if_neg hmem] at h
          by_cases hbf : busses.length = MAX_PCI_BUSSES
          · rw [if_pos hbf] at h; cases h; rfl
          · rw [if_neg hbf] at h
            exact enum_devs_error_val devs _ _ e h

theorem enum_devs_ok_le : ∀ (devs : List PciDev) (acc : List (PciDev × Nat))
    (busses : List Nat) (res : List (PciDev × Nat) × List Nat),
    acc.length ≤ MAX_NBIOS → enum_devs devs acc busses = Except.ok res →
    res.1.length ≤ MAX_NBIOS
  | [], acc, busses, res, hle, h => by
    rw [enum_devs] at h
    cases h
    exact hle
  | d :: devs, acc, busses, res, hle, h => by
    rw [enum_devs] at h
    by_cases hio : d.vendor = PCI_VENDOR_ID_AMD ∧ d.device = F19_IOHC_DEVID
    · rw [if_pos hio] at h
      by_cases hfull : acc.length = MAX_NBIOS
      · rw [if_pos hfull] at h; cases h
      · rw [if_neg hfull] at h
        exact enum_devs_ok_le devs _ _ res (by simp [MAX_NBIOS] at hle hfull ⊢; omega) h
    · rw [if_neg hio] at h
      by_cases hsoc : is_soc_dev d = true
      · rw [if_pos hsoc] at h
        exact enum_devs_ok_le devs _ _ res hle h
      · rw [if_neg hsoc] at h
        by_cases hmem : d.bus ∈ busses
        · rw [if_pos hmem] at h
          exact enum_devs_ok_le devs _ _ res hle h
        · rw [if_neg hmem] at h
          by_cases hbf : busses.length = MAX_PCI_BUSSES
          · rw [if_pos hbf] at h; cases h
          · rw [if_neg hbf] at h
            exact enum_devs_ok_le devs _ _ res hle h

/-- C5 (amended): discovery fails with `-ENOTSUPP` whenever more than 8 IOHC
tiles are enumerated or the tile count is not a multiple of
`F19_MAX_NBIOS / 2 = 4`; conversely any published topology has a tile count
of 0, 4 or 8 — the degenerate 0-tile enumeration is accepted (with
`amd_num_sockets = 0`), so the accepted configurations are exactly the
0-, 4- and 8-tile ones, not only the 4- and 8-tile ones. -/
theorem c5_discovery_failure_conditions (devs : List PciDev)
    (smn : PciDev → Nat → Except Int Nat) :
    (MAX_NBIOS < iohc_count devs →
      get_system_topology devs smn = Except.error (-ENOTSUPP)) ∧
    (iohc_count devs % (F19_MAX_NBIOS / 2) ≠ 0 →
      get_system_topology devs smn = Except.error (-ENOTSUPP)) ∧
    (∀ t, get_system_topology devs smn = Except.ok t →
      t.num_nbios = 0 ∨ t.num_nbios = 4 ∨ t.num_nbios = 8) := by
  refine ⟨fun hgt => ?_, fun hmod => ?_, fun t ht => ?_⟩
  · have henum := enum_devs_overflow devs [] [] (by simp [MAX_NBIOS]) (by simpa using hgt)
    rw [get_system_topology, henum]
  · cases henum : enum_devs devs [] [] with
    | error e =>
      have := enum_devs_error_val devs [] [] e henum
      subst this
      rw [get_system_topology, henum]
    | ok res =>
      have hlen : res.1.length = iohc_count devs := by
        simpa using enum_devs_ok_length devs [] [] res henum
      cases res with
      | mk nbios0 busses =>
        simp only at hlen
        rw [get_system_topology, henum]
        simp only []
        rw [if_pos (by rw [hlen]; exact hmod)]
  · cases henum : enum_devs devs [] [] with
    | error e =>
      rw [get_system_topology, henum] at ht
      cases ht
    | ok res =>
      have hlen : res.1.length = iohc_count devs := by
        simpa using enum_devs_ok_length devs [] [] res henum
      have hle : res.1.length ≤ MAX_NBIOS :=
        enum_devs_ok_le devs [] [] res (by simp [MAX_NBIOS]) henum
      cases res with
      | mk nbios0 busses =>
        simp only at hlen hle
        rw [get_system_topology, henum] at ht
        simp only [] at ht
        by_cases hmod : nbios0.length % (F19_MAX_NBIOS / 2) ≠ 0
        · rw [if_pos hmod] at ht
          cases ht
        · rw [if_neg hmod] at ht
          cases hre : remapLoop smn (cacheSockets (selSort (fun p => p.2) nbios0)
              nbios0.length) nbios0.length 0
              (calcLimits (selSort (fun p => p.2) nbios0) ++
                List.replicate (MAX_NBIOS - nbios0.length) default_nbio) with
          | error e => rw [hre] at ht; cases ht
          | ok table2 =>
            rw [hre] at ht
            cases ht
            simp only []
            simp only [MAX_NBIOS] at hle
            simp only [F19_MAX_NBIOS, not_not] at hmod
            omega

theorem c5_discovery_failure_conditions_witness :
    MAX_NBIOS < iohc_count (List.replicate 9 (mkIohc 0)) ∧
    get_system_topology (List.replicate 9 (mkIohc 0)) (fun _ _ => Except.error (-1)) =
      Except.error (-ENOTSUPP) :=
  ⟨by decide,
   (c5_discovery_failure_conditions (List.replicate 9 (mkIohc 0))
     (fun _ _ => Except.error (-1))).1 (by decide)⟩

theorem getD_replicate {α : Type} (k m : Nat) (a : α) :
    (List.replicate k a).getD m a = a := by
  rw [List.getD_eq_getElem?_getD, List.getElem?_replicate]
  split <;> rfl

theorem bus_to_nbio_table (sb : List Nat) (n : Nat) (arr : List nbio_dev)
    (hlen8 : arr.length = MAX_NBIOS) (hn8 : n ≤ MAX_NBIOS)
    (hstrict : ∀ i j, i < j → j < n → sb.getD i 0 < sb.getD j 0)
    (hble : ∀ i, i < n → sb.getD i 0 ≤ 0xFF)
    (hbase : ∀ m, m < MAX_NBIOS → (arr.getD m default_nbio).bus_base =
      (if m < n then sb.getD m 0 else 0xFF))
    (hlimit : ∀ m, m < MAX_NBIOS → (arr.getD m default_nbio).bus_limit =
      (if m < n then (if m + 1 < n then sb.getD (m + 1) 0 - 1 else 0xFF) else 0))
    (j : Nat) (hj : j < n) :
    bus_to_nbio arr (sb.getD j 0) = some j := by
  unfold bus_to_nbio
  have h8 : (MAX_NBIOS : Nat) = 8 := rfl
  have hfalse : ∀ k, k < j →
      (fun nb => decide (nb.bus_base ≤ sb.getD j 0 ∧ sb.getD j 0 ≤ nb.bus_limit))
        (arr.getD k default_nbio) = false := by
    intro k hk
    have hk8 : k < MAX_NBIOS := by omega
    have hkn : k < n := by omega
    have hk1n : k + 1 < n := by omega
    simp only [hbase k hk8, hlimit k hk8, if_pos hkn, if_pos hk1n,
      decide_eq_false_iff_not]
    rintro ⟨-, h2⟩
    have hlt1 : sb.getD k 0 < sb.getD (k + 1) 0 := hstrict k (k + 1) (by omega) hk1n
    have hle2 : sb.getD (k + 1) 0 ≤ sb.getD j 0 := by
      have hsplit : k + 1 = j ∨ k + 1 < j := by omega
      rcases hsplit with he | hl
      · subst he; exact le_refl _
      · exact le_of_lt (hstrict (k + 1) j hl hj)
    omega
  have htrue :
      (fun nb => decide (nb.bus_base ≤ sb.getD j 0 ∧ sb.getD j 0 ≤ nb.bus_limit))
        (arr.getD j default_nbio) = true := by
    have hj8 : j < MAX_NBIOS := by omega
    simp only [hbase j hj8, hlimit j hj8, if_pos hj, decide_eq_true_eq]
    refine ⟨le_refl _, ?_⟩
    by_cases hj1 : j + 1 < n
    · rw [if_pos hj1]
      have := hstrict j (j + 1) (by omega) hj1
      omega
    · rw [if_neg hj1]
      exact hble j hj
  have := findIdx?_from
    (fun nb => decide (nb.bus_base ≤ sb.getD j 0 ∧ sb.getD j 0 ≤ nb.bus_limit))
    default_nbio arr 0 j (by omega) hfalse htrue
  simpa using this

theorem remapLoop_stamps (smn : PciDev → Nat → Except Int Nat)
    (socks : List (Option PciDev)) (sb : List Nat) (n : Nat)
    (hn8 : n ≤ MAX_NBIOS)
    (hstrict : ∀ i j, i < j → j < n → sb.getD i 0 < sb.getD j 0)
    (hble : ∀ i, i < n → sb.getD i 0 ≤ 0xFF)
    (hsocks : ∀ i, i < n → socks.getD (i / 4) none =
      some (mkIohc (sb.getD (4 * (i / 4)) 0)))
    (hsmn : ∀ i, i < n →
      smn (mkIohc (sb.getD (4 * (i / 4)) 0))
          (SMN_IOHCMISC0_NB_BUS_NUM_CNTL + i % 4 * SMN_IOHCMISC_OFFSET) =
        Except.ok (sb.getD i 0)) :
    ∀ (k i : Nat) (arr : List nbio_dev), i + k = n → arr.length = MAX_NBIOS →
    (∀ m, m < MAX_NBIOS → (arr.getD m default_nbio).bus_base =
      (if m < n then sb.getD m 0 else 0xFF)) →
    (∀ m, m < MAX_NBIOS → (arr.getD m default_nbio).bus_limit =
      (if m < n then (if m + 1 < n then sb.getD (m + 1) 0 - 1 else 0xFF) else 0)) →
    ∃ arr', remapLoop smn socks k i arr = Except.ok arr' ∧
      arr'.length = MAX_NBIOS ∧
      (∀ m, m < i → arr'.getD m default_nbio = arr.getD m default_nbio) ∧
      (∀ m, i ≤ m → m < i + k →
        (arr'.getD m default_nbio).socket_id = m / 4 ∧
        (arr'.getD m default_nbio).id = m % 4 ∧
        (arr'.getD m default_nbio).bus_base = (arr.getD m default_nbio).bus_base ∧
        (arr'.getD m default_nbio).bus_limit = (arr.getD m default_nbio).bus_limit)
  | 0, i, arr, _, hlen, _, _ =>
    ⟨arr, rfl, hlen, fun _ _ => rfl, fun m h1 h2 => by omega⟩
  | k + 1, i, arr, hik, hlen, hbase, hlimit => by
    have hin : i < n := by omega
    have hi8 : i < MAX_NBIOS := by omega
    rw [remapLoop, hsocks i hin]
    simp only []
    rw [hsmn i hin]
    simp only []
    have hmod : sb.getD i 0 % 256 = sb.getD i 0 :=
      Nat.mod_eq_of_lt (by have := hble i hin; omega)
    rw [hmod]
    rw [bus_to_nbio_table sb n arr hlen hn8 hstrict hble hbase hlimit i hin]
    simp only []
    set nb := arr.getD i default_nbio with hnb
    set arr2 := arr.set i { nb with socket_id := i / 4, id := i % 4 } with harr2
    have hlen2 : arr2.length = MAX_NBIOS := by
      rw [harr2, List.length_set, hlen]
    have hget2_eq : arr2.getD i default_nbio = { nb with socket_id := i / 4, id := i % 4 } := by
      rw [harr2]
      exact getD_set_self arr i (by omega) _ _
    have hget2_ne : ∀ m, m ≠ i → arr2.getD m default_nbio = arr.getD m default_nbio := by
      intro m hm
      rw [harr2]
      exact getD_set_ne arr i m (fun hc => hm hc.symm) _ _
    have hbase2 : ∀ m, m < MAX_NBIOS → (arr2.getD m default_nbio).bus_base =
        (if m < n then sb.getD m 0 else 0xFF) := by
      intro m hm
      by_cases hmi : m = i
      · subst hmi
        rw [hget2_eq]
        exact hbase m hm
      · rw [hget2_ne m hmi]
        exact hbase m hm
    have hlimit2 : ∀ m, m < MAX_NBIOS → (arr2.getD m default_nbio).bus_limit =
        (if m < n then (if m + 1 < n then sb.getD (m + 1) 0 - 1 else 0xFF) else 0) := by
      intro m hm
      by_cases hmi : m = i
      · subst hmi
        rw [hget2_eq]
        exact hlimit m hm
      · rw [hget2_ne m hmi]
        exact hlimit m hm
    obtain ⟨arr', hrun, hlen', hpres, hstamp⟩ :=
      remapLoop_stamps smn socks sb n hn8 hstrict hble hsocks hsmn
        k (i + 1) arr2 (by omega) hlen2 hbase2 hlimit2
    refine ⟨arr', hrun, hlen', ?_, ?_⟩
    · intro m hm
      rw [hpres m (by omega), hget2_ne m (by omega)]
    · intro m h1 h2
      by_cases hmi : m = i
      · subst hmi
        rw [hpres m (by omega), hget2_eq]
        exact ⟨rfl, rfl, rfl, rfl⟩
      · have hm1 : i + 1 ≤ m := by omega
        obtain ⟨hs1, hs2, hs3, hs4⟩ := hstamp m hm1 (by omega)
        exact ⟨hs1, hs2, by rw [hs3, hget2_ne m hmi],
          by rw [hs4, hget2_ne m hmi]⟩

/-- C4: topology discovery is deterministic in the enumerated tile bus bases
(with the firmware `NB_BUS_NUM_CNTL` registers reporting each tile's own
base): for 4 or 8 IOHC devices with distinct byte-sized bus bases, discovery
succeeds; the published tiles are the enumerated bases sorted ascending; each
tile's bus limit is the next sorted base minus 1 (0xFF for the last); the
tile at sorted position `i` gets socket index `i / 4` and NBIO id `i % 4`;
and `amd_num_sockets` is the tile count divided by 4. -/
theorem c4_topology_deterministic (bs : List Nat)
    (smn : PciDev → Nat → Except Int Nat)
    (hnd : bs.Nodup) (hle : ∀ b ∈ bs, b ≤ 0xFF)
    (hlen : bs.length = 4 ∨ bs.length = 8)
    (hsmn : ∀ i, i < bs.length →
      smn (mkIohc ((sortedBases bs).getD (4 * (i / 4)) 0))
          (SMN_IOHCMISC0_NB_BUS_NUM_CNTL + i % 4 * SMN_IOHCMISC_OFFSET) =
        Except.ok ((sortedBases bs).getD i 0)) :
    ∃ t, get_system_topology (bs.map mkIohc) smn = Except.ok t ∧
      t.num_nbios = bs.length ∧
      t.amd_num_sockets = bs.length / 4 ∧
      (sortedBases bs).Perm bs ∧
      List.Pairwise (· < ·) (sortedBases bs) ∧
      (∀ i, i < bs.length →
        (t.nbios.getD i default_nbio).bus_base = (sortedBases bs).getD i 0 ∧
        (t.nbios.getD i default_nbio).bus_limit =
          (if i + 1 < bs.length then (sortedBases bs).getD (i + 1) 0 - 1 else 0xFF) ∧
        (t.nbios.getD i default_nbio).socket_id = i / 4 ∧
        (t.nbios.getD i default_nbio).id = i % 4) := by
  have hperm : (sortedBases bs).Perm bs := selSort_perm _ bs
  have hsblen : (sortedBases bs).length = bs.length := hperm.length_eq
  have hsorted_le : List.Pairwise (fun a b => a ≤ b) (sortedBases bs) :=
    selSort_sorted _ bs
  have hsbnd : (sortedBases bs).Nodup := (hperm.nodup_iff).2 hnd
  have hsorted_lt : List.Pairwise (· < ·) (sortedBases bs) :=
    (hsorted_le.and hsbnd).imp (fun h => lt_of_le_of_ne h.1 h.2)
  have hstrict : ∀ i j, i < j → j < bs.length →
      (sortedBases bs).getD i 0 < (sortedBases bs).getD j 0 := by
    intro i j hij hj
    have hi : i < (sortedBases bs).length := by omega
    have hj' : j < (sortedBases bs).length := by omega
    have := List.pairwise_iff_getElem.1 hsorted_lt i j hi hj' hij
    rwa [List.getD_eq_getElem _ 0 hi, List.getD_eq_getElem _ 0 hj']
  have hble : ∀ i, i < bs.length → (sortedBases bs).getD i 0 ≤ 0xFF := by
    intro i hi
    have hi' : i < (sortedBases bs).length := by omega
    rw [List.getD_eq_getElem _ 0 hi']
    exact hle _ (hperm.mem_iff.1 (List.getElem_mem hi'))
  have hn8 : bs.length ≤ MAX_NBIOS := by
    rcases hlen with h | h <;> simp [h, MAX_NBIOS]
  have henum := enum_devs_iohc bs [] [] (by simpa using hn8)
  simp only [List.nil_append] at henum
  rw [get_system_topology, henum]
  simp only []
  rw [List.length_map]
  rw [if_neg (by rcases hlen with h | h <;> simp [h, F19_MAX_NBIOS])]
  have hfold : selSort (fun p => p.2) (bs.map fun b => (mkIohc b, b)) =
      (sortedBases bs).map fun b => (mkIohc b, b) := by
    rw [selSort_map (fun b => (mkIohc b, b)) (fun p => p.2) (fun b => b) (fun a => rfl) bs]
    rfl
  rw [hfold]
  have htbl_len : (calcLimits ((sortedBases bs).map fun b => (mkIohc b, b))).length =
      bs.length := by
    rw [calcLimits_length, List.length_map, hsblen]
  have htable_len : (calcLimits ((sortedBases bs).map fun b => (mkIohc b, b)) ++
      List.replicate (MAX_NBIOS - bs.length) default_nbio).length = MAX_NBIOS := by
    rw [List.length_append, htbl_len, List.length_replicate]
    simp only [MAX_NBIOS] at hn8 ⊢
    omega
  have hmapD : ∀ m : Nat,
      ((sortedBases bs).map fun b => (mkIohc b, b)).getD m (mkIohc 0, 0) =
        (mkIohc ((sortedBases bs).getD m 0), (sortedBases bs).getD m 0) :=
    fun m => List.getD_map _ _ _
  have htbase : ∀ m, m < MAX_NBIOS →
      (((calcLimits ((sortedBases bs).map fun b => (mkIohc b, b)) ++
        List.replicate (MAX_NBIOS - bs.length) default_nbio)).getD m default_nbio).bus_base =
        (if m < bs.length then (sortedBases bs).getD m 0 else 0xFF) := by
    intro m hm
    by_cases hmn : m < bs.length
    · rw [List.getD_append _ _ _ m (by rw [htbl_len]; exact hmn)]
      rw [calcLimits_getD (mkIohc 0, 0) _ m (by rw [List.length_map, hsblen]; exact hmn)]
      simp [hmapD, hmn]
    · rw [List.getD_append_right _ _ _ m (by rw [htbl_len]; omega)]
      rw [htbl_len, getD_replicate]
      rw [if_neg hmn]
      rfl
  have htlimit : ∀ m, m < MAX_NBIOS →
      (((calcLimits ((sortedBases bs).map fun b => (mkIohc b, b)) ++
        List.replicate (MAX_NBIOS - bs.length) default_nbio)).getD m default_nbio).bus_limit =
        (if m < bs.length then
          (if m + 1 < bs.length then (sortedBases bs).getD (m + 1) 0 - 1 else 0xFF)
         else 0) := by
    intro m hm
    by_cases hmn : m < bs.length
    · rw [List.getD_append _ _ _ m (by rw [htbl_len]; exact hmn)]
      rw [calcLimits_getD (mkIohc 0, 0) _ m (by rw [List.length_map, hsblen]; exact hmn)]
      rw [List.length_map, hsblen]
      simp [hmapD, hmn]
    · rw [List.getD_append_right _ _ _ m (by rw [htbl_len]; omega)]
      rw [htbl_len, getD_replicate]
      rw [if_neg hmn]
      rfl
  have hsocks : ∀ i, i < bs.length →
      (cacheSockets ((sortedBases bs).map fun b => (mkIohc b, b)) bs.length).getD
          (i / 4) none =
        some (mkIohc ((sortedBases bs).getD (4 * (i / 4)) 0)) := by
    intro i hi
    have hget : ∀ j, j < bs.length →
        ((sortedBases bs).map fun b => (mkIohc b, b))[j]? =
          some (mkIohc ((sortedBases bs).getD j 0), (sortedBases bs).getD j 0) := by
      intro j hj
      rw [List.getElem?_map, List.getElem?_eq_getElem (by rw [hsblen]; exact hj)]
      rw [List.getD_eq_getElem _ 0 (by rw [hsblen]; exact hj)]
      rfl
    rcases hlen with h4 | h8
    · have hdiv : i / 4 = 0 := Nat.div_eq_of_lt (by omega)
      rw [hdiv, cacheSockets, List.getD_cons_zero]
      rw [if_pos (by rw [h4]; omega : (0 : Nat) < bs.length - 1)]
      rw [hget 0 (by omega)]
      rfl
    · by_cases hi4 : i < 4
      · have hdiv : i / 4 = 0 := Nat.div_eq_of_lt hi4
        rw [hdiv, cacheSockets, List.getD_cons_zero]
        rw [if_pos (by rw [h8]; omega : (0 : Nat) < bs.length - 1)]
        rw [hget 0 (by omega)]
        rfl
      · have hdiv : i / 4 = 1 := by omega
        rw [hdiv, cacheSockets, List.getD_cons_succ, List.getD_cons_zero]
        rw [if_pos (by rw [h8]; omega : (4 : Nat) < bs.length - 1)]
        rw [hget 4 (by omega)]
        rfl
  obtain ⟨arr', hrun, hlen', hpres, hstamp⟩ :=
    remapLoop_stamps smn _ (sortedBases bs) bs.length hn8 hstrict hble hsocks hsmn
      bs.length 0 _ (by omega) htable_len htbase htlimit
  rw [hrun]
  refine ⟨_, rfl, rfl, rfl, hperm, hsorted_lt, ?_⟩
  intro i hi
  obtain ⟨hs1, hs2, hs3, hs4⟩ := hstamp i (by omega) (by omega)
  refine ⟨?_, ?_, hs1, hs2⟩
  · rw [hs3, htbase i (by omega), if_pos hi]
  · rw [hs4, htlimit i (by omega), if_pos hi]

theorem c4_topology_deterministic_witness :
    ([0x80, 0x00, 0xC0, 0x40] : List Nat).Nodup ∧
    (∀ b ∈ ([0x80, 0x00, 0xC0, 0x40] : List Nat), b ≤ 0xFF) ∧
    (([0x80, 0x00, 0xC0, 0x40] : List Nat).length = 4 ∨
      ([0x80, 0x00, 0xC0, 0x40] : List Nat).length = 8) ∧
    (∀ i, i < ([0x80, 0x00, 0xC0, 0x40] : List Nat).length →
      (fun (_ : PciDev) (addr : Nat) =>
          (Except.ok (([0x00, 0x40, 0x80, 0xC0] : List Nat).getD
            ((addr - SMN_IOHCMISC0_NB_BUS_NUM_CNTL) / SMN_IOHCMISC_OFFSET) 0) :
            Except Int Nat))
        (mkIohc ((sortedBases [0x80, 0x00, 0xC0, 0x40]).getD (4 * (i / 4)) 0))
        (SMN_IOHCMISC0_NB_BUS_NUM_CNTL + i % 4 * SMN_IOHCMISC_OFFSET) =
      Except.ok ((sortedBases [0x80, 0x00, 0xC0, 0x40]).getD i 0)) ∧
    (∃ t, get_system_topology (([0x80, 0x00, 0xC0, 0x40] : List Nat).map mkIohc)
        (fun _ addr => Except.ok
          (([0x00, 0x40, 0x80, 0xC0] : List Nat).getD
            ((addr - SMN_IOHCMISC0_NB_BUS_NUM_CNTL) / SMN_IOHCMISC_OFFSET) 0)) =
        Except.ok t ∧
      t.num_nbios = ([0x80, 0x00, 0xC0, 0x40] : List Nat).length ∧
      t.amd_num_sockets = ([0x80, 0x00, 0xC0, 0x40] : List Nat).length / 4 ∧
      (sortedBases [0x80, 0x00, 0xC0, 0x40]).Perm [0x80, 0x00, 0xC0, 0x40] ∧
      List.Pairwise (· < ·) (sortedBases [0x80, 0x00, 0xC0, 0x40]) ∧
      (∀ i, i < ([0x80, 0x00, 0xC0, 0x40] : List Nat).length →
        (t.nbios.getD i default_nbio).bus_base =
          (sortedBases [0x80, 0x00, 0xC0, 0x40]).getD i 0 ∧
        (t.nbios.getD i default_nbio).bus_limit =
          (if i + 1 < ([0x80, 0x00, 0xC0, 0x40] : List Nat).length then
            (sortedBases [0x80, 0x00, 0xC0, 0x40]).getD (i + 1) 0 - 1
           else 0xFF) ∧
        (t.nbios.getD i default_nbio).socket_id = i / 4 ∧
        (t.nbios.getD i default_nbio).id = i % 4)) :=
  ⟨by decide, by decide, Or.inl (by decide),
   by
     intro i hi
     have h4 : i < 4 := by simpa using hi
     interval_cases i <;> rfl,
   c4_topology_deterministic [0x80, 0x00, 0xC0, 0x40]
     (fun _ addr => Except.ok
       (([0x00, 0x40, 0x80, 0xC0] : List Nat).getD
         ((addr - SMN_IOHCMISC0_NB_BUS_NUM_CNTL) / SMN_IOHCMISC_OFFSET) 0))
     (by decide) (by decide) (Or.inl (by decide))
     (by
       intro i hi
       have h4 : i < 4 := by simpa using hi
       interval_cases i <;> rfl)⟩
